import Mathlib

/-!
Shallow embedding of the in-memory connection/room/call coordination core of
the bailanys-signal server (src/index.ts, src/src/rooms.ts, src/src/ws.ts,
src/src/roomMessages.ts, src/src/state.ts).

JavaScript Maps are modelled as association lists with unique keys
(alGet/alSet/alErase); JS Sets as duplicate-free lists (setAdd/setDel).
Outbound sends and external-store writes are modelled as an effect list
(the Out type); the Supabase rooms table is carried in the state (dbRooms),
password hashing/verification is an environment parameter (Env).
-/

/-- Lookup in an association list (models Map.get). -/
def alGet {K V : Type} [DecidableEq K] (m : List (K × V)) (k : K) : Option V :=
  match m with
  | [] => none
  | (k', v) :: rest => if k = k' then some v else alGet rest k

/-- Remove a key (models Map.delete). -/
def alErase {K V : Type} [DecidableEq K] (m : List (K × V)) (k : K) : List (K × V) :=
  m.filter (fun p => p.1 ≠ k)

/-- Insert or replace a key (models Map.set; entry order is not observable here). -/
def alSet {K V : Type} [DecidableEq K] (m : List (K × V)) (k : K) (v : V) : List (K × V) :=
  (k, v) :: alErase m k

/-- Key presence (models Map.has). -/
def alHas {K V : Type} [DecidableEq K] (m : List (K × V)) (k : K) : Bool :=
  (alGet m k).isSome

/-- Add to a set (models Set.add). -/
def setAdd {α : Type} [DecidableEq α] (s : List α) (x : α) : List α :=
  if x ∈ s then s else x :: s

/-- Remove from a set (models Set.delete). -/
def setDel {α : Type} [DecidableEq α] (s : List α) (x : α) : List α :=
  s.filter (fun y => y ≠ x)

/-- Boolean set membership (models Set.has). -/
def memB {α : Type} [DecidableEq α] (x : α) (s : List α) : Bool :=
  decide (x ∈ s)

/-- A JS optional string coerced as the code does with a falsy check:
undefined becomes the empty string. -/
def jsStr (o : Option String) : String := o.getD ""

/-- JS String.prototype.trim, modelled on the character list so that it
evaluates inside the kernel. -/
def jsTrim (s : String) : String :=
  String.mk
    (((s.data.dropWhile Char.isWhitespace).reverse.dropWhile Char.isWhitespace).reverse)

/-- JS String.prototype.startsWith, modelled on the character list. -/
def strStartsWith (s pre : String) : Bool :=
  List.isPrefixOf pre.data s.data

/-- Persisted room record (the rooms table row read by ensureRoomRecord). -/
structure RoomRecord where
  rname : String := ""
  room_type : String := "group"
  created_by : String := ""
  is_active : Bool := true
  max_participants : Option Int := none
  is_private : Bool := false
  password_hash : Option String := none
deriving Repr, DecidableEq

/-- Per-connection mutable data (ws.data in index.ts). -/
structure ConnData where
  userId : String
  isGuest : Bool := false
  guestRoomId : Option String := none
  guestAllowPrivate : Bool := false
  roomId : Option String := none
  chatRooms : List String := []
deriving Repr, DecidableEq

/-- The shared server state: the four in-memory tables of src/state.ts
(users, rooms, roomChats, activeCalls), per-connection data, the persisted
rooms table, and the in-memory room-message fallback cache
(roomMessagesByRoom, tracked by message count). -/
structure ServerState where
  users : List (String × List Nat) := []
  connData : List (Nat × ConnData) := []
  rooms : List (String × List String) := []
  roomChats : List (String × List String) := []
  activeCalls : List (String × String) := []
  dbRooms : List (String × RoomRecord) := []
  msgCache : List (String × Nat) := []
deriving Repr, DecidableEq

/-- External collaborators: password hashing and verification
(Bun.password in rooms.ts) and the persisted room_members role store
(room_members table; the join handler itself never reads it). -/
structure Env where
  hashPw : String → String
  verifyPw : String → String → Bool
  memberRole : String → String → Option String

/-- Inbound message payload (WebSocketMessage in types.ts, duck-typed). -/
structure InMsg where
  mtype : String
  toU : Option String := none
  roomId : Option String := none
  body : Option String := none
  isTyping : Bool := false
  create : Bool := false
  rname : Option String := none
  isPrivate : Bool := false
  password : Option String := none
  receiverId : Option String := none
  callType : Option String := none
deriving Repr, DecidableEq

/-- Outbound message payloads produced by the core. -/
inductive OutMsg where
  | userStatus (userId status : String)
  | userConnected (userId : String)
  | userDisconnected (userId : String)
  | relayed (m : InMsg) (fromU : String)
  | hangupSynth (fromU reason : String)
  | typingNote (fromU : String) (isTyping : Bool)
  | errMsg (message : String)
  | roomJoined (roomId : String) (userList : List String) (selfId : String)
  | roomMessagesSnapshot (roomId : String) (count : Nat)
  | roomUserJoined (roomId userId : String)
  | roomUserLeft (roomId userId : String)
  | roomChatMessage (roomId senderId body : String)
  | incomingCall (fromU : String) (callType : Option String)
deriving Repr, DecidableEq

/-- Effects: routed sends (sendJson, sendToUser, broadcast, broadcastToRoom,
broadcastToRoomChat in ws.ts) and external-store writes (setPresence,
touchLastSeen in supabase.ts; room_participants writes in rooms.ts). -/
inductive Out where
  | toConn (connId : Nat) (m : OutMsg)
  | toUser (userId : String) (m : OutMsg)
  | broadcastAll (excludeUser : Option String) (m : OutMsg)
  | toRoom (roomId : String) (excludeUser : Option String) (m : OutMsg)
  | toRoomChat (roomId : String) (excludeUser : Option String) (m : OutMsg)
  | setPresenceDb (userId status : String)
  | touchLastSeenDb (userId : String)
  | dbParticipantUpsert (roomId userId : String)
  | dbParticipantDeactivate (roomId userId : String)
deriving Repr, DecidableEq

/-- index.ts getConnectionCount: users.get(userId)?.size ?? 0. -/
def getConnectionCount (s : ServerState) (userId : String) : Nat :=
  ((alGet s.users userId).getD []).length

/-- rooms.ts isUserInAnyRoom. -/
def isUserInAnyRoom (s : ServerState) (userId : String) : Bool :=
  s.rooms.any (fun r => memB userId r.2)

/-- index.ts resolvePresenceStatus. -/
def resolvePresenceStatus (s : ServerState) (userId : String) : String :=
  if alHas s.activeCalls userId || isUserInAnyRoom s userId then "in-call"
  else if 0 < getConnectionCount s userId then "online" else "offline"

/-- index.ts updateUserStatus: persists to the profile store (best effort)
and broadcasts user-status to everyone. -/
def updateUserStatus (userId status : String) : List Out :=
  [Out.setPresenceDb userId status,
   Out.broadcastAll none (OutMsg.userStatus userId status)]

/-- Live member set of a room (rooms.get(roomId) with a missing room read
as the empty set). -/
def roomMembers (s : ServerState) (roomId : String) : List String :=
  (alGet s.rooms roomId).getD []

def ROOM_MESSAGE_LIMIT : Nat := 200

def ROOM_MESSAGE_MAX_LENGTH : Nat := 2000

/-- roomMessages.ts storeRoomMessage, modelled by its in-memory fallback
branch: the cache is tracked by message count, capped at the ring limit. -/
def storeRoomMessageCache (mc : List (String × Nat)) (roomId : String) : List (String × Nat) :=
  let n := (alGet mc roomId).getD 0
  alSet mc roomId (min (n + 1) ROOM_MESSAGE_LIMIT)

/-- roomMessages.ts getRoomMessages, modelled by the fallback cache count. -/
def getRoomMessagesCount (s : ServerState) (roomId : String) : Nat :=
  (alGet s.msgCache roomId).getD 0

/-- roomMessages.ts clearRoomMessages. -/
def clearRoomMessages (mc : List (String × Nat)) (roomId : String) : List (String × Nat) :=
  alErase mc roomId

/-- roomMessages.ts canAccessRoomChat (none means access granted, some is
the error message the caller reports). -/
def canAccessRoomChat (s : ServerState) (userId roomId : String) : Option String :=
  match alGet s.dbRooms roomId with
  | none => some "Room not found"
  | some r => if r.is_private && r.created_by != userId then some "Room access denied" else none

/-- rooms.ts normalizeRoomName. -/
def normalizeRoomName (nameOpt : Option String) : String :=
  let trimmed := jsTrim (nameOpt.getD "")
  if trimmed.length > 80 then trimmed.take 80 else trimmed

/-- rooms.ts hashRoomPassword (hash failure is not modelled; an empty or
whitespace password yields none). -/
def hashRoomPassword (env : Env) (password : Option String) : Option String :=
  let value := jsTrim (password.getD "")
  if value = "" then none else some (env.hashPw value)

/-- rooms.ts setRoomActive: flips is_active on the persisted record. -/
def setRoomActive (db : List (String × RoomRecord)) (roomId : String) (isActive : Bool) :
    List (String × RoomRecord) :=
  match alGet db roomId with
  | none => db
  | some r => alSet db roomId { r with is_active := isActive }

/-- Result of rooms.ts ensureRoomRecord. -/
structure EnsureResult where
  room : Option RoomRecord := none
  allowed : Bool := true
  errCode : Option String := none
  created : Bool := false
deriving Repr, DecidableEq

/-- rooms.ts ensureRoomRecord: looks the room up in the persisted table,
optionally creating it; returns the lookup result together with the
(possibly extended) table. The degraded lookup-error branches are not
modelled: the store is total here. -/
def ensureRoomRecord (env : Env) (db : List (String × RoomRecord)) (roomId userId : String)
    (createIfMissing : Bool) (nameOpt : Option String) (isPrivate : Bool)
    (password : Option String) : EnsureResult × List (String × RoomRecord) :=
  match alGet db roomId with
  | some r => ({ room := some r }, db)
  | none =>
    if !createIfMissing then ({ room := none, allowed := false }, db)
    else
      let roomName := normalizeRoomName nameOpt
      if roomName = "" then ({ allowed := false, errCode := some "name-required" }, db)
      else if isPrivate && jsStr password == "" then
        ({ allowed := false, errCode := some "password-required" }, db)
      else
        let passwordHash := if isPrivate then hashRoomPassword env password else none
        if isPrivate && passwordHash.isNone then
          ({ allowed := false, errCode := some "password-hash-failed" }, db)
        else
          ({ room := none, allowed := true, created := true },
           alSet db roomId
             { rname := roomName, room_type := "group", created_by := userId,
               is_active := true, max_participants := none,
               is_private := isPrivate, password_hash := passwordHash })

/-- rooms.ts handleLeaveRoom. -/
def handleLeaveRoom (s : ServerState) (cid : Nat) (skipPresence : Bool) :
    ServerState × List Out :=
  match alGet s.connData cid with
  | none => (s, [])
  | some d =>
    match d.roomId with
    | none => (s, [])
    | some roomId =>
      let step1 :=
        match alGet s.rooms roomId with
        | none => (s.rooms, s.msgCache, ([] : List Out))
        | some mem =>
          let mem' := setDel mem d.userId
          if mem'.isEmpty then
            (alErase s.rooms roomId, clearRoomMessages s.msgCache roomId, [])
          else
            (alSet s.rooms roomId mem', s.msgCache,
             [Out.toRoom roomId (some d.userId) (OutMsg.roomUserLeft roomId d.userId)])
      let rooms1 := step1.1
      let mc1 := step1.2.1
      let outs1 := step1.2.2
      let outs2 := if skipPresence then [] else [Out.dbParticipantDeactivate roomId d.userId]
      let db1 := if alHas rooms1 roomId then s.dbRooms else setRoomActive s.dbRooms roomId false
      ({ s with rooms := rooms1, msgCache := mc1, dbRooms := db1,
                connData := alSet s.connData cid { d with roomId := none } },
       outs1 ++ outs2)

/-- One iteration body plus recursion for rooms.ts removeUserFromRooms:
the loop walks the room entries as they were at loop start, each key being
processed once. -/
def removeUserFromRoomsAux (userId : String) (skipPresence : Bool)
    (entries : List (String × List String)) (s : ServerState) (acc : List Out) :
    ServerState × List Out :=
  match entries with
  | [] => (s, acc)
  | (roomId, mem) :: rest =>
    if memB userId mem then
      let mem' := setDel mem userId
      let step1 :=
        if mem'.isEmpty then
          (alErase s.rooms roomId, clearRoomMessages s.msgCache roomId, ([] : List Out))
        else
          (alSet s.rooms roomId mem', s.msgCache,
           [Out.toRoom roomId (some userId) (OutMsg.roomUserLeft roomId userId)])
      let rooms1 := step1.1
      let mc1 := step1.2.1
      let outs1 := step1.2.2
      let outs2 := if skipPresence then [] else [Out.dbParticipantDeactivate roomId userId]
      let db1 := if alHas rooms1 roomId then s.dbRooms else setRoomActive s.dbRooms roomId false
      removeUserFromRoomsAux userId skipPresence rest
        { s with rooms := rooms1, msgCache := mc1, dbRooms := db1 } (acc ++ outs1 ++ outs2)
    else
      removeUserFromRoomsAux userId skipPresence rest s acc

/-- rooms.ts removeUserFromRooms. -/
def removeUserFromRooms (s : ServerState) (userId : String) (skipPresence : Bool) :
    ServerState × List Out :=
  removeUserFromRoomsAux userId skipPresence s.rooms s []

/-- Join options (rooms.ts handleJoinRoom options argument). -/
structure JoinOptions where
  createIfMissing : Bool := false
  rname : Option String := none
  isPrivate : Bool := false
  password : Option String := none
  actorIsGuest : Bool := false
  actorAllowPrivateBypass : Bool := false
deriving Repr, DecidableEq

/-- rooms.ts lines 229-235: the inactive-room rejection guard. -/
def inactiveBlocked (roomRec : Option RoomRecord) (userId : String) : Bool :=
  match roomRec with
  | some r => !r.is_active && r.created_by != userId
  | none => false

/-- rooms.ts lines 237-246: a guest may proceed only if the live room has
some member whose id does not carry the guest prefix. -/
def guestBlocked (s : ServerState) (roomId : String) (isGuest : Bool) : Bool :=
  isGuest &&
    !(match alGet s.rooms roomId with
      | some mem => mem.any (fun uid => !strStartsWith uid "guest:")
      | none => false)

/-- rooms.ts lines 248-255: the capacity guard against the live member count. -/
def capacityBlocked (roomRec : Option RoomRecord) (sz : Nat) : Bool :=
  match roomRec with
  | some r =>
    match r.max_participants with
    | some n => 0 < n && n ≤ (sz : Int)
    | none => false
  | none => false

/-- rooms.ts lines 257-273: the private-room password check; none means the
check passes, some is the error sent. -/
def privateCheckMsg (env : Env) (roomRec : Option RoomRecord)
    (isGuest allowPrivateBypass : Bool) (password : Option String) : Option String :=
  match roomRec with
  | some r =>
    if r.is_private && !(isGuest && allowPrivateBypass) then
      let pw := jsTrim (password.getD "")
      if pw = "" then some "Room password required"
      else
        match r.password_hash with
        | none => some "Invalid room password"
        | some h => if env.verifyPw pw h then none else some "Invalid room password"
    else none
  | none => none

/-- rooms.ts lines 208-227: the error message reported when ensureRoomRecord
disallows the join. -/
def ensureErrorMessage (errCode : Option String) : String :=
  match errCode with
  | some "password-required" => "Room password required"
  | some "password-hash-failed" => "Room password required"
  | some "name-required" => "Room name required"
  | some "privacy-unsupported" => "Room privacy unsupported"
  | some "server" => "Room error"
  | _ => "Room not found"

/-- rooms.ts lines 194-196: when the connection is already in a different
room, the join auto-leaves that room first (before any validation). -/
def joinAutoLeave (s : ServerState) (cid : Nat) (isGuest : Bool) (roomId : String)
    (d0 : ConnData) : ServerState × List Out :=
  match d0.roomId with
  | some r0 => if r0 ≠ roomId then handleLeaveRoom s cid isGuest else (s, [])
  | none => (s, [])

/-- The room-record lookup or creation of handleJoinRoom (rooms.ts lines
198-203), with the creation options stripped for guests. -/
def joinEnsure (env : Env) (s1 : ServerState) (roomId : String) (opts : JoinOptions)
    (d0 : ConnData) : EnsureResult × List (String × RoomRecord) :=
  ensureRoomRecord env s1.dbRooms roomId d0.userId
    (!opts.actorIsGuest && opts.createIfMissing)
    (if opts.actorIsGuest then none else opts.rname)
    (if opts.actorIsGuest then false else opts.isPrivate)
    (if opts.actorIsGuest then none else opts.password)

/-- rooms.ts lines 229-235: a room persisted as inactive is reactivated
when its creator rejoins it. -/
def joinActivate (er : EnsureResult) (db : List (String × RoomRecord)) (roomId : String) :
    List (String × RoomRecord) :=
  match er.room with
  | some r => if !r.is_active then setRoomActive db roomId true else db
  | none => db

/-- rooms.ts handleJoinRoom, validation and mutation phase (everything
after the auto-leave of the prior room): the guest, inactivity, capacity
and password guards, and on success the membership mutation and
notifications. -/
def joinMain (env : Env) (s1 : ServerState) (cid : Nat) (roomId : String)
    (opts : JoinOptions) (d0 : ConnData) : ServerState × List Out :=
  let isGuest := opts.actorIsGuest
  let ens := joinEnsure env s1 roomId opts d0
  let er := ens.1
  let s2 := { s1 with dbRooms := ens.2 }
  if isGuest && er.room.isNone && !alHas s2.rooms roomId then
    (s2, [Out.toConn cid (OutMsg.errMsg "Room not found")])
  else if !er.allowed then
    (s2, [Out.toConn cid (OutMsg.errMsg (ensureErrorMessage er.errCode))])
  else if inactiveBlocked er.room d0.userId then
    (s2, [Out.toConn cid (OutMsg.errMsg "Room inactive")])
  else
    let s3 := { s2 with dbRooms := joinActivate er s2.dbRooms roomId }
    if guestBlocked s3 roomId isGuest then
      (s3, [Out.toConn cid (OutMsg.errMsg "Room inactive")])
    else if capacityBlocked er.room (roomMembers s3 roomId).length then
      (s3, [Out.toConn cid (OutMsg.errMsg "Room is full")])
    else
      match privateCheckMsg env er.room isGuest opts.actorAllowPrivateBypass opts.password with
      | some emsg => (s3, [Out.toConn cid (OutMsg.errMsg emsg)])
      | none =>
        let mem' := setAdd (roomMembers s3 roomId) d0.userId
        let partOuts := if !isGuest then [Out.dbParticipantUpsert roomId d0.userId] else []
        let s4 := { s3 with rooms := alSet s3.rooms roomId mem',
                            dbRooms := setRoomActive s3.dbRooms roomId true,
                            connData := alSet s3.connData cid { d0 with roomId := some roomId } }
        let histCount := getRoomMessagesCount s4 roomId
        let histOuts :=
          if 0 < histCount then [Out.toConn cid (OutMsg.roomMessagesSnapshot roomId histCount)]
          else []
        (s4, partOuts ++
             [Out.toConn cid (OutMsg.roomJoined roomId mem' d0.userId)] ++ histOuts ++
             [Out.toRoom roomId (some d0.userId) (OutMsg.roomUserJoined roomId d0.userId)])

/-- rooms.ts handleJoinRoom: auto-leave of the prior room, then the
validation and mutation phase. -/
def handleJoinRoom (env : Env) (s : ServerState) (cid : Nat) (roomId : String)
    (opts : JoinOptions) : ServerState × List Out :=
  match alGet s.connData cid with
  | none => (s, [])
  | some d0 =>
    let leaveRes := joinAutoLeave s cid opts.actorIsGuest roomId d0
    let res := joinMain env leaveRes.1 cid roomId opts d0
    (res.1, leaveRes.2 ++ res.2)

/-- index.ts answer handling: both call-table directions are set. -/
def answerCalls (ac : List (String × String)) (f t : String) : List (String × String) :=
  alSet (alSet ac f t) t f

/-- index.ts hangup handling: the peer is the sender's table entry,
defaulting to the named target; both keys are deleted. -/
def hangupCalls (ac : List (String × String)) (f t : String) : List (String × String) :=
  alErase (alErase ac f) ((alGet ac f).getD t)

/-- index.ts close handling: if the closing user has an entry, both keys of
the pair are deleted. -/
def closeCalls (ac : List (String × String)) (u : String) : List (String × String) :=
  match alGet ac u with
  | some p => alErase (alErase ac u) p
  | none => ac

def directTypes : List String := ["offer", "answer", "ice-candidate", "hangup", "screen-share"]

def roomSignalTypes : List String := ["room-offer", "room-answer", "room-ice"]

/-- websocket.message handler of index.ts. -/
def handleMessage (env : Env) (s : ServerState) (cid : Nat) (m : InMsg) :
    ServerState × List Out :=
  match alGet s.connData cid with
  | none => (s, [])
  | some d =>
    let isGuest := d.isGuest
    if m.mtype = "presence-pong" then
      (s, if !isGuest then [Out.touchLastSeenDb d.userId] else [])
    else if memB m.mtype directTypes then
      if isGuest then (s, [])
      else
        let fromU := d.userId
        let t := jsStr m.toU
        if t = "" then (s, [])
        else if m.mtype = "offer" &&
            (alHas s.activeCalls t || alHas s.activeCalls fromU ||
             isUserInAnyRoom s t || isUserInAnyRoom s fromU) then
          (s, [Out.toUser fromU (OutMsg.hangupSynth t "rejected")])
        else
          let stepRes :=
            if m.mtype = "answer" then
              ({ s with activeCalls := answerCalls s.activeCalls fromU t },
               updateUserStatus fromU "in-call" ++ updateUserStatus t "in-call")
            else if m.mtype = "hangup" then
              let peerId := (alGet s.activeCalls fromU).getD t
              let s' := { s with activeCalls := hangupCalls s.activeCalls fromU t }
              (s', updateUserStatus fromU (resolvePresenceStatus s' fromU) ++
                   updateUserStatus peerId (resolvePresenceStatus s' peerId))
            else (s, [])
          (stepRes.1, stepRes.2 ++ [Out.toUser t (OutMsg.relayed m fromU)])
    else if m.mtype = "typing" then
      if isGuest then (s, [])
      else
        let t := jsStr m.toU
        if t = "" then (s, [])
        else (s, [Out.toUser t (OutMsg.typingNote d.userId m.isTyping)])
    else if memB m.mtype roomSignalTypes then
      let t := jsStr m.toU
      let roomId := jsStr m.roomId
      if t = "" ∨ roomId = "" then (s, [])
      else
        match alGet s.rooms roomId with
        | none => (s, [])
        | some mem =>
          if memB d.userId mem && memB t mem then
            (s, [Out.toUser t (OutMsg.relayed m d.userId)])
          else (s, [])
    else if m.mtype = "join-room-chat" then
      let roomId := jsStr m.roomId
      if roomId = "" then (s, [])
      else
        match canAccessRoomChat s d.userId roomId with
        | some emsg => (s, [Out.toConn cid (OutMsg.errMsg emsg)])
        | none =>
          let s1 := { s with
            roomChats := alSet s.roomChats roomId
              (setAdd ((alGet s.roomChats roomId).getD []) d.userId),
            connData := alSet s.connData cid { d with chatRooms := setAdd d.chatRooms roomId } }
          (s1, [Out.toConn cid (OutMsg.roomMessagesSnapshot roomId (getRoomMessagesCount s1 roomId))])
    else if m.mtype = "leave-room-chat" then
      let roomId := jsStr m.roomId
      if roomId = "" then (s, [])
      else
        let chats' :=
          match alGet s.roomChats roomId with
          | none => s.roomChats
          | some mem =>
            let mem' := setDel mem d.userId
            if mem'.isEmpty then alErase s.roomChats roomId
            else alSet s.roomChats roomId mem'
        ({ s with roomChats := chats',
                  connData := alSet s.connData cid { d with chatRooms := setDel d.chatRooms roomId } },
         [])
    else if m.mtype = "room-message" then
      let roomId := jsStr m.roomId
      if roomId = "" then (s, [])
      else
        match canAccessRoomChat s d.userId roomId with
        | some emsg => (s, [Out.toConn cid (OutMsg.errMsg emsg)])
        | none =>
          let body := jsTrim (m.body.getD "")
          if body = "" then (s, [])
          else if ROOM_MESSAGE_MAX_LENGTH < body.length then
            (s, [Out.toConn cid (OutMsg.errMsg "Message too long")])
          else
            ({ s with msgCache := storeRoomMessageCache s.msgCache roomId },
             [Out.toRoomChat roomId none (OutMsg.roomChatMessage roomId d.userId body)])
    else if m.mtype = "join-room" then
      if isGuest then (s, [])
      else if jsStr m.roomId = "" then
        (s, [Out.toConn cid (OutMsg.errMsg "Room not found")])
      else
        let joinRes := handleJoinRoom env s cid (jsStr m.roomId)
          { createIfMissing := m.create, rname := m.rname,
            isPrivate := m.isPrivate, password := m.password }
        (joinRes.1,
         joinRes.2 ++ updateUserStatus d.userId (resolvePresenceStatus joinRes.1 d.userId))
    else if m.mtype = "leave-room" then
      let leaveRes := handleLeaveRoom s cid isGuest
      if isGuest then leaveRes
      else
        (leaveRes.1,
         leaveRes.2 ++ updateUserStatus d.userId (resolvePresenceStatus leaveRes.1 d.userId))
    else if m.mtype = "start-call" then
      if isGuest then (s, [])
      else (s, [Out.toUser (jsStr m.receiverId) (OutMsg.incomingCall d.userId m.callType)])
    else (s, [])

/-- Connection-handshake data (the upgrade payload in index.ts fetch). -/
structure OpenData where
  userId : String
  isGuest : Bool := false
  guestRoomId : Option String := none
  guestAllowPrivate : Bool := false
deriving Repr, DecidableEq

/-- websocket.open handler of index.ts. -/
def handleOpen (env : Env) (s : ServerState) (cid : Nat) (od : OpenData) :
    ServerState × List Out :=
  let d : ConnData :=
    { userId := od.userId, isGuest := od.isGuest,
      guestRoomId := od.guestRoomId, guestAllowPrivate := od.guestAllowPrivate }
  let sockets := (alGet s.users od.userId).getD []
  let isFirstConnection := sockets.isEmpty
  let s1 := { s with connData := alSet s.connData cid d,
                     users := alSet s.users od.userId (setAdd sockets cid) }
  let outs1 :=
    if isFirstConnection && !od.isGuest then
      updateUserStatus od.userId (resolvePresenceStatus s1 od.userId) ++
      [Out.broadcastAll (some od.userId) (OutMsg.userConnected od.userId)]
    else []
  if od.isGuest && jsStr od.guestRoomId ≠ "" then
    let joinRes := handleJoinRoom env s1 cid (jsStr od.guestRoomId)
      { actorIsGuest := true, actorAllowPrivateBypass := od.guestAllowPrivate }
    (joinRes.1, outs1 ++ joinRes.2)
  else (s1, outs1)

/-- Remove a user from the chat-subscription sets of the given rooms
(the chatRooms loop in websocket.close). -/
def cleanChats (chats : List (String × List String)) (roomIds : List String)
    (userId : String) : List (String × List String) :=
  match roomIds with
  | [] => chats
  | roomId :: rest =>
    let chats' :=
      match alGet chats roomId with
      | none => chats
      | some mem =>
        let mem' := setDel mem userId
        if mem'.isEmpty then alErase chats roomId else alSet chats roomId mem'
    cleanChats chats' rest userId

/-- websocket.close handler of index.ts. -/
def handleClose (_env : Env) (s : ServerState) (cid : Nat) : ServerState × List Out :=
  match alGet s.connData cid with
  | none => (s, [])
  | some d =>
    let userId := d.userId
    let isGuest := d.isGuest
    let socketsOpt := alGet s.users userId
    let usersRes :=
      match socketsOpt with
      | none => (s.users, true)
      | some l =>
        let l' := setDel l cid
        if l'.isEmpty then (alErase s.users userId, true)
        else (alSet s.users userId l', false)
    let s1 := { s with users := usersRes.1 }
    if usersRes.2 then
      let remRes := removeUserFromRooms s1 userId isGuest
      let s2 := remRes.1
      let outs1 := remRes.2
      let s3 := { s2 with roomChats := cleanChats s2.roomChats d.chatRooms userId,
                          connData := alSet s2.connData cid { d with chatRooms := [] } }
      if isGuest then (s3, outs1)
      else
        match alGet s3.activeCalls userId with
        | some peerId =>
          let s4 := { s3 with activeCalls := closeCalls s3.activeCalls userId }
          let peerStatus := resolvePresenceStatus s4 peerId
          (s4, outs1 ++ updateUserStatus peerId peerStatus ++
               [Out.toUser peerId (OutMsg.hangupSynth userId "ended")] ++
               updateUserStatus userId "offline" ++
               [Out.broadcastAll (some userId) (OutMsg.userDisconnected userId)])
        | none =>
          (s3, outs1 ++ updateUserStatus userId "offline" ++
               [Out.broadcastAll (some userId) (OutMsg.userDisconnected userId)])
    else (s1, [])

/-- Connection-level events driving the server. -/
inductive Event where
  | connOpen (cid : Nat) (od : OpenData)
  | connMsg (cid : Nat) (m : InMsg)
  | connClose (cid : Nat)
deriving Repr, DecidableEq

/-- One step of the server on an event. -/
def step (env : Env) (s : ServerState) (e : Event) : ServerState × List Out :=
  match e with
  | .connOpen cid od => handleOpen env s cid od
  | .connMsg cid m => handleMessage env s cid m
  | .connClose cid => handleClose env s cid

/-- The call-table alphabet of claim C1: answer and hangup messages and
connection closes, projected to their effect on the active-call table. -/
inductive CallEvent where
  | ans (f t : String)
  | hup (f t : String)
  | disc (u : String)
deriving Repr, DecidableEq

/-- The active-call table transition of one call event, exactly as the
handlers perform it (the empty target is the handler's early return). -/
def callStep (ac : List (String × String)) : CallEvent → List (String × String)
  | .ans f t => if t = "" then ac else answerCalls ac f t
  | .hup f t => if t = "" then ac else hangupCalls ac f t
  | .disc u => closeCalls ac u

/-- Run a sequence of call events from a table. -/
def runCallsFrom (ac : List (String × String)) (es : List CallEvent) :
    List (String × String) :=
  es.foldl callStep ac

/-- Run a sequence of call events from the empty table. -/
def runCalls (es : List CallEvent) : List (String × String) :=
  runCallsFrom [] es

/-- The symmetry invariant of the spec: A maps to B iff B maps to A. -/
def CallSymm (ac : List (String × String)) : Prop :=
  ∀ a b : String, alGet ac a = some b ↔ alGet ac b = some a

/-- Protocol-conformance guard for one call event: an answer finds both
parties free, and a hangup whose sender has no entry names a target with no
entry. -/
def callOkB (ac : List (String × String)) : CallEvent → Bool
  | .ans f t => (t == "") || ((alGet ac f).isNone && (alGet ac t).isNone)
  | .hup f t => (t == "") || (alGet ac f).isSome || (alGet ac t).isNone
  | .disc _ => true

/-- A protocol-conformant run: every event satisfies its guard at its point. -/
def goodRunB (ac : List (String × String)) : List CallEvent → Bool
  | [] => true
  | e :: es => callOkB ac e && goodRunB (callStep ac e) es

/-- Outbound payloads that the presence subsystem emits: the user-status
broadcast and the discrete connected/disconnected lifecycle events. -/
def isPresenceMsg : OutMsg → Bool
  | .userStatus _ _ => true
  | .userConnected _ => true
  | .userDisconnected _ => true
  | _ => false

/-- Effects forbidden for guests by claim C10: presence-related sends and
presence or last-seen writes to the external profile store. -/
def presenceEffect : Out → Bool
  | .toConn _ mo => isPresenceMsg mo
  | .toUser _ mo => isPresenceMsg mo
  | .broadcastAll _ mo => isPresenceMsg mo
  | .toRoom _ _ mo => isPresenceMsg mo
  | .toRoomChat _ _ mo => isPresenceMsg mo
  | .setPresenceDb _ _ => true
  | .touchLastSeenDb _ => true
  | .dbParticipantUpsert _ _ => false
  | .dbParticipantDeactivate _ _ => false

/-- A concrete environment for evaluating the model on concrete inputs:
hashing is the identity and verification is string equality. -/
def envDefault : Env :=
  { hashPw := fun p => p,
    verifyPw := fun p h => p == h,
    memberRole := fun _ _ => none }

/-! ## Lemmas about the map and set primitives -/

theorem alGet_cons {K V : Type} [DecidableEq K] (k k' : K) (v : V) (rest : List (K × V)) :
    alGet ((k', v) :: rest) k = if k = k' then some v else alGet rest k := rfl

theorem alErase_cons_self {K V : Type} [DecidableEq K] (k : K) (v : V) (rest : List (K × V)) :
    alErase ((k, v) :: rest) k = alErase rest k := by
  simp [alErase, List.filter_cons]

theorem alErase_cons_ne {K V : Type} [DecidableEq K] {k k' : K} (h : k' ≠ k) (v : V)
    (rest : List (K × V)) : alErase ((k', v) :: rest) k = (k', v) :: alErase rest k := by
  simp [alErase, List.filter_cons, h]

theorem alGet_alErase {K V : Type} [DecidableEq K] (m : List (K × V)) (k a : K) :
    alGet (alErase m k) a = if a = k then none else alGet m a := by
  induction m with
  | nil => simp [alErase, alGet]
  | cons p rest ih =>
    obtain ⟨k', v⟩ := p
    by_cases h1 : k' = k
    · subst h1
      rw [alErase_cons_self, ih]
      by_cases h2 : a = k' <;> simp [alGet_cons, h2]
    · rw [alErase_cons_ne h1]
      by_cases h2 : a = k'
      · subst h2
        have h3 : ¬ a = k := fun hh => h1 hh
        simp [alGet_cons, h3]
      · rw [alGet_cons, if_neg h2, ih, alGet_cons, if_neg h2]

theorem alGet_alSet {K V : Type} [DecidableEq K] (m : List (K × V)) (k a : K) (v : V) :
    alGet (alSet m k v) a = if a = k then some v else alGet m a := by
  by_cases h : a = k <;> simp [alSet, alGet_cons, h, alGet_alErase]

theorem alErase_of_get_none {K V : Type} [DecidableEq K] {m : List (K × V)} {k : K}
    (h : alGet m k = none) : alErase m k = m := by
  induction m with
  | nil => rfl
  | cons p rest ih =>
    obtain ⟨k', v⟩ := p
    by_cases h1 : k = k'
    · rw [alGet_cons, if_pos h1] at h
      exact absurd h (by simp)
    · rw [alGet_cons, if_neg h1] at h
      rw [alErase_cons_ne (fun hh => h1 hh.symm), ih h]

theorem alGet_mem {K V : Type} [DecidableEq K] {m : List (K × V)} {k : K} {v : V}
    (h : alGet m k = some v) : (k, v) ∈ m := by
  induction m with
  | nil => simp [alGet] at h
  | cons p rest ih =>
    obtain ⟨k', v'⟩ := p
    by_cases h1 : k = k'
    · subst h1
      simp [alGet] at h
      simp [h]
    · simp [alGet, h1] at h
      simp [ih h]

theorem mem_setAdd {α : Type} [DecidableEq α] (s : List α) (x y : α) :
    y ∈ setAdd s x ↔ y = x ∨ y ∈ s := by
  by_cases h : x ∈ s <;> simp [setAdd, h]
  intro hy
  subst hy
  simp [h]

theorem mem_setDel {α : Type} [DecidableEq α] (s : List α) (x y : α) :
    y ∈ setDel s x ↔ y ∈ s ∧ y ≠ x := by
  simp [setDel, List.mem_filter]

theorem setDel_of_not_mem {α : Type} [DecidableEq α] {s : List α} {x : α}
    (h : x ∉ s) : setDel s x = s := by
  apply List.filter_eq_self.mpr
  intro a ha
  simp
  intro hax
  exact absurd (hax ▸ ha) h

/-! ## The active-call table: symmetry analysis (claim C1) -/

theorem alGet_answerCalls (ac : List (String × String)) (f t a : String) :
    alGet (answerCalls ac f t) a =
      if a = t then some f else if a = f then some t else alGet ac a := by
  by_cases h1 : a = t <;> by_cases h2 : a = f <;>
    simp [answerCalls, alGet_alSet, h1, h2]

theorem callSymm_nil : CallSymm [] := by
  intro a b
  simp [alGet]

theorem callSymm_answer {ac : List (String × String)} {f t : String}
    (hs : CallSymm ac) (hf : alGet ac f = none) (ht : alGet ac t = none) :
    CallSymm (answerCalls ac f t) := by
  have knf : ∀ x y, alGet ac x = some y → ¬ y = f := by
    intro x y hxy hyf
    rw [hyf] at hxy
    have h2 := (hs x f).mp hxy
    rw [hf] at h2
    exact absurd h2 (by simp)
  have knt : ∀ x y, alGet ac x = some y → ¬ y = t := by
    intro x y hxy hyt
    rw [hyt] at hxy
    have h2 := (hs x t).mp hxy
    rw [ht] at h2
    exact absurd h2 (by simp)
  intro a b
  rw [alGet_answerCalls, alGet_answerCalls]
  by_cases h1 : a = t
  · rw [if_pos h1]
    by_cases h3 : b = t
    · rw [if_pos h3, h1, h3]
    · rw [if_neg h3]
      by_cases h4 : b = f
      · rw [if_pos h4, h1, h4]
        simp
      · rw [if_neg h4]
        constructor
        · intro h
          exact absurd (Option.some.inj h).symm h4
        · intro h
          exact absurd h1 (knt b a h)
  · rw [if_neg h1]
    by_cases h2 : a = f
    · rw [if_pos h2]
      by_cases h3 : b = t
      · rw [if_pos h3, h2, h3]
        simp
      · rw [if_neg h3]
        by_cases h4 : b = f
        · rw [if_pos h4, h2, h4]
        · rw [if_neg h4]
          constructor
          · intro h
            exact absurd (Option.some.inj h).symm h3
          · intro h
            exact absurd h2 (knf b a h)
    · rw [if_neg h2]
      by_cases h3 : b = t
      · rw [if_pos h3]
        constructor
        · intro h
          exact absurd h3 (knt a b h)
        · intro h
          exact absurd (Option.some.inj h).symm h2
      · rw [if_neg h3]
        by_cases h4 : b = f
        · rw [if_pos h4]
          constructor
          · intro h
            exact absurd h4 (knf a b h)
          · intro h
            exact absurd (Option.some.inj h).symm h1
        · rw [if_neg h4]
          exact hs a b

theorem callSymm_erase_pair {ac : List (String × String)} {f p : String}
    (hs : CallSymm ac) (hp : alGet ac f = some p) :
    CallSymm (alErase (alErase ac f) p) := by
  have hpf : alGet ac p = some f := (hs f p).mp hp
  have kp : ∀ x, alGet ac x = some p → x = f := by
    intro x hx
    have h2 := (hs x p).mp hx
    rw [hpf] at h2
    exact (Option.some.inj h2).symm
  have kf : ∀ x, alGet ac x = some f → x = p := by
    intro x hx
    have h2 := (hs x f).mp hx
    rw [hp] at h2
    exact (Option.some.inj h2).symm
  intro a b
  rw [alGet_alErase, alGet_alErase, alGet_alErase, alGet_alErase]
  by_cases hap : a = p
  · rw [if_pos hap]
    constructor
    · intro h
      exact absurd h (by simp)
    · intro h
      by_cases hbp : b = p
      · rw [if_pos hbp] at h
        exact absurd h (by simp)
      · rw [if_neg hbp] at h
        by_cases hbf : b = f
        · rw [if_pos hbf] at h
          exact absurd h (by simp)
        · rw [if_neg hbf] at h
          rw [hap] at h
          exact absurd (kp b h) hbf
  · rw [if_neg hap]
    by_cases haf : a = f
    · rw [if_pos haf]
      constructor
      · intro h
        exact absurd h (by simp)
      · intro h
        by_cases hbp : b = p
        · rw [if_pos hbp] at h
          exact absurd h (by simp)
        · rw [if_neg hbp] at h
          by_cases hbf : b = f
          · rw [if_pos hbf] at h
            exact absurd h (by simp)
          · rw [if_neg hbf] at h
            rw [haf] at h
            exact absurd (kf b h) hbp
    · rw [if_neg haf]
      by_cases hbp : b = p
      · rw [if_pos hbp]
        constructor
        · intro h
          rw [hbp] at h
          exact absurd (kp a h) haf
        · intro h
          exact absurd h (by simp)
      · rw [if_neg hbp]
        by_cases hbf : b = f
        · rw [if_pos hbf]
          constructor
          · intro h
            rw [hbf] at h
            exact absurd (kf a h) hap
          · intro h
            exact absurd h (by simp)
        · rw [if_neg hbf]
          exact hs a b

theorem callStep_preserves_symm (ac : List (String × String)) (e : CallEvent)
    (hs : CallSymm ac) (hok : callOkB ac e = true) : CallSymm (callStep ac e) := by
  cases e with
  | ans f t =>
    by_cases ht0 : t = ""
    · simp only [callStep, if_pos ht0]
      exact hs
    · have hok2 : t = "" ∨ (alGet ac f = none ∧ alGet ac t = none) := by
        simpa [callOkB, Option.isNone_iff_eq_none] using hok
      rcases hok2 with h | ⟨hf, ht⟩
      · exact absurd h ht0
      · simp only [callStep, if_neg ht0]
        exact callSymm_answer hs hf ht
  | hup f t =>
    by_cases ht0 : t = ""
    · simp only [callStep, if_pos ht0]
      exact hs
    · simp only [callStep, if_neg ht0]
      cases hgf : alGet ac f with
      | some p =>
        have heq : hangupCalls ac f t = alErase (alErase ac f) p := by
          simp only [hangupCalls, hgf, Option.getD_some]
        rw [heq]
        exact callSymm_erase_pair hs hgf
      | none =>
        have hok2 : t = "" ∨ alGet ac t = none := by
          simpa [callOkB, Option.isNone_iff_eq_none, hgf] using hok
        rcases hok2 with h | ht
        · exact absurd h ht0
        · have heq : hangupCalls ac f t = ac := by
            simp only [hangupCalls, hgf, Option.getD_none]
            rw [alErase_of_get_none hgf, alErase_of_get_none ht]
          rw [heq]
          exact hs
  | disc u =>
    cases hgu : alGet ac u with
    | some p =>
      have heq : callStep ac (CallEvent.disc u) = alErase (alErase ac u) p := by
        simp only [callStep, closeCalls, hgu]
      rw [heq]
      exact callSymm_erase_pair hs hgu
    | none =>
      have heq : callStep ac (CallEvent.disc u) = ac := by
        simp only [callStep, closeCalls, hgu]
      rw [heq]
      exact hs

theorem runCallsFrom_symm (es : List CallEvent) :
    ∀ ac : List (String × String), CallSymm ac → goodRunB ac es = true →
      CallSymm (runCallsFrom ac es) := by
  induction es with
  | nil =>
    intro ac hs _
    simpa [runCallsFrom] using hs
  | cons e rest ih =>
    intro ac hs hg
    simp only [goodRunB, Bool.and_eq_true] at hg
    have h1 : CallSymm (callStep ac e) := callStep_preserves_symm ac e hs hg.1
    simpa [runCallsFrom] using ih (callStep ac e) h1 hg.2

theorem runCallsFrom_cons (ac : List (String × String)) (e : CallEvent)
    (es : List CallEvent) : runCallsFrom ac (e :: es) = runCallsFrom (callStep ac e) es := rfl

/-- Claim C1 (amended): starting from the empty active-call table, the
symmetry invariant (A maps to B iff B maps to A) holds after every
protocol-conformant sequence of answer, hangup and connection-close events:
one where each answer arrives when neither party has an entry, and each
hangup whose sender has no entry names a target with no entry.  Without
that proviso the invariant fails (see the counterexample). -/
theorem activeCalls_symm_of_conformant_run (es : List CallEvent)
    (h : goodRunB [] es = true) : CallSymm (runCalls es) :=
  runCallsFrom_symm es [] callSymm_nil h

theorem activeCalls_symm_of_conformant_run_witness :
    goodRunB [] [CallEvent.ans "a" "b", CallEvent.hup "a" "b"] = true ∧
      CallSymm (runCalls [CallEvent.ans "a" "b", CallEvent.hup "a" "b"]) :=
  ⟨by decide, activeCalls_symm_of_conformant_run _ (by decide)⟩

/-- Claim C1 as stated is false: the reachable sequence in which "b"
answers "c" (making the pair symmetric) and then the idle user "a" sends a
hanging hangup naming "b" deletes only "b"'s entry, leaving "c" mapped to
"b" while "b" is unmapped. -/
theorem activeCalls_symm_counterexample :
    ¬ CallSymm (runCalls [CallEvent.ans "b" "c", CallEvent.hup "a" "b"]) := by
  intro h
  have h1 : alGet (runCalls [CallEvent.ans "b" "c", CallEvent.hup "a" "b"]) "c" =
      some "b" := by decide
  have h2 := (h "c" "b").mp h1
  have h3 : alGet (runCalls [CallEvent.ans "b" "c", CallEvent.hup "a" "b"]) "b" =
      none := by decide
  rw [h3] at h2
  exact absurd h2 (by simp)

/-- Claim C2: the derived presence status is in-call exactly when the user
has an active-call entry or belongs to some live room member set; otherwise
it is online exactly when the user has at least one open connection, and
offline exactly when it has none. -/
theorem presence_status_characterization (s : ServerState) (u : String) :
    (resolvePresenceStatus s u = "in-call" ↔
      ((∃ p, alGet s.activeCalls u = some p) ∨ ∃ e ∈ s.rooms, u ∈ e.2)) ∧
    (resolvePresenceStatus s u = "online" ↔
      (¬((∃ p, alGet s.activeCalls u = some p) ∨ ∃ e ∈ s.rooms, u ∈ e.2) ∧
        0 < getConnectionCount s u)) ∧
    (resolvePresenceStatus s u = "offline" ↔
      (¬((∃ p, alGet s.activeCalls u = some p) ∨ ∃ e ∈ s.rooms, u ∈ e.2) ∧
        getConnectionCount s u = 0)) := by
  have hb : (alHas s.activeCalls u || isUserInAnyRoom s u) = true ↔
      ((∃ p, alGet s.activeCalls u = some p) ∨ ∃ e ∈ s.rooms, u ∈ e.2) := by
    simp [alHas, isUserInAnyRoom, memB, Option.isSome_iff_exists, List.any_eq_true]
  unfold resolvePresenceStatus
  by_cases h1 : (alHas s.activeCalls u || isUserInAnyRoom s u) = true
  · rw [if_pos h1]
    refine ⟨by simpa using hb.mp h1, ?_, ?_⟩
    · constructor
      · intro h
        exact absurd h (by simp)
      · intro h
        exact absurd (hb.mp h1) h.1
    · constructor
      · intro h
        exact absurd h (by simp)
      · intro h
        exact absurd (hb.mp h1) h.1
  · rw [if_neg h1]
    have hnot : ¬((∃ p, alGet s.activeCalls u = some p) ∨ ∃ e ∈ s.rooms, u ∈ e.2) :=
      fun hc => h1 (hb.mpr hc)
    by_cases h2 : 0 < getConnectionCount s u
    · rw [if_pos h2]
      refine ⟨⟨fun h => absurd h (by simp), fun h => absurd (hb.mpr h) h1⟩, ?_, ?_⟩
      · exact ⟨fun _ => ⟨hnot, h2⟩, fun _ => rfl⟩
      · constructor
        · intro h
          exact absurd h (by simp)
        · intro h
          omega
    · rw [if_neg h2]
      refine ⟨⟨fun h => absurd h (by simp), fun h => absurd (hb.mpr h) h1⟩, ?_, ?_⟩
      · constructor
        · intro h
          exact absurd h (by simp)
        · intro h
          omega
      · exact ⟨fun _ => ⟨hnot, by omega⟩, fun _ => rfl⟩

/-! ## Direct signaling claims (C3, C8) -/

theorem offer_reject_step
    (env : Env) (s : ServerState) (cid : Nat) (m : InMsg) (d : ConnData) (b : String)
    (hcd : alGet s.connData cid = some d) (hg : d.isGuest = false)
    (hty : m.mtype = "offer") (hto : m.toU = some b) (hb : b ≠ "")
    (hbusy : (alHas s.activeCalls b || alHas s.activeCalls d.userId ||
              isUserInAnyRoom s b || isUserInAnyRoom s d.userId) = true) :
    step env s (.connMsg cid m) =
      (s, [Out.toUser d.userId (OutMsg.hangupSynth b "rejected")]) := by
  show handleMessage env s cid m = _
  unfold handleMessage
  rw [hcd]
  simp [hty, hto, hg, jsStr, hb, hbusy, memB, directTypes]

/-- Claim C3: a non-guest offer naming target B while either party already
has an active-call entry or is in a live room is rejected: the sender
receives hangup with from B and reason rejected, the target receives
nothing, and the state (call and room tables included) is unchanged. -/
theorem offer_collision_rejected
    (env : Env) (s : ServerState) (cid : Nat) (m : InMsg) (d : ConnData) (b : String)
    (hcd : alGet s.connData cid = some d) (hg : d.isGuest = false)
    (hty : m.mtype = "offer") (hto : m.toU = some b) (hb : b ≠ "")
    (hab : d.userId ≠ b)
    (hbusy : (alHas s.activeCalls b || alHas s.activeCalls d.userId ||
              isUserInAnyRoom s b || isUserInAnyRoom s d.userId) = true) :
    (step env s (.connMsg cid m)).1 = s ∧
    (step env s (.connMsg cid m)).2 =
      [Out.toUser d.userId (OutMsg.hangupSynth b "rejected")] ∧
    ∀ mo : OutMsg, Out.toUser b mo ∉ (step env s (.connMsg cid m)).2 := by
  have hstep := offer_reject_step env s cid m d b hcd hg hty hto hb hbusy
  refine ⟨by rw [hstep], by rw [hstep], ?_⟩
  intro mo hmem
  rw [hstep] at hmem
  simp at hmem
  exact hab hmem.1.symm

theorem offer_collision_rejected_witness :
    (step envDefault
        { users := [("a", [1]), ("b", [2])],
          connData := [(1, { userId := "a" }), (2, { userId := "b" })],
          activeCalls := [("b", "c"), ("c", "b")] }
        (.connMsg 1 { mtype := "offer", toU := some "b" })).1 =
      { users := [("a", [1]), ("b", [2])],
        connData := [(1, { userId := "a" }), (2, { userId := "b" })],
        activeCalls := [("b", "c"), ("c", "b")] } ∧
    (step envDefault
        { users := [("a", [1]), ("b", [2])],
          connData := [(1, { userId := "a" }), (2, { userId := "b" })],
          activeCalls := [("b", "c"), ("c", "b")] }
        (.connMsg 1 { mtype := "offer", toU := some "b" })).2 =
      [Out.toUser "a" (OutMsg.hangupSynth "b" "rejected")] := by
  have h := offer_collision_rejected envDefault
    { users := [("a", [1]), ("b", [2])],
      connData := [(1, { userId := "a" }), (2, { userId := "b" })],
      activeCalls := [("b", "c"), ("c", "b")] }
    1 { mtype := "offer", toU := some "b" } { userId := "a" } "b"
    (by decide) rfl rfl rfl (by decide) (by decide) (by decide)
  exact ⟨h.1, h.2.1⟩

/-- Claim C8: a non-guest hangup naming target T resolves the peer as the
sender's active-call entry, defaulting to T; both the sender's and the
resolved peer's entries are removed, presence is recomputed and broadcast
for both, and the hangup is relayed to T stamped with the sender id. -/
theorem hangup_clears_both_sides
    (env : Env) (s : ServerState) (cid : Nat) (m : InMsg) (d : ConnData) (t : String)
    (hcd : alGet s.connData cid = some d) (hg : d.isGuest = false)
    (hty : m.mtype = "hangup") (hto : m.toU = some t) (ht : t ≠ "") :
    (step env s (.connMsg cid m)).1 =
      { s with activeCalls := hangupCalls s.activeCalls d.userId t } ∧
    alGet (step env s (.connMsg cid m)).1.activeCalls d.userId = none ∧
    alGet (step env s (.connMsg cid m)).1.activeCalls
      ((alGet s.activeCalls d.userId).getD t) = none ∧
    (step env s (.connMsg cid m)).2 =
      updateUserStatus d.userId
          (resolvePresenceStatus
            { s with activeCalls := hangupCalls s.activeCalls d.userId t } d.userId) ++
        updateUserStatus ((alGet s.activeCalls d.userId).getD t)
          (resolvePresenceStatus
            { s with activeCalls := hangupCalls s.activeCalls d.userId t }
            ((alGet s.activeCalls d.userId).getD t)) ++
        [Out.toUser t (OutMsg.relayed m d.userId)] := by
  have hstep : step env s (.connMsg cid m) =
      ({ s with activeCalls := hangupCalls s.activeCalls d.userId t },
       updateUserStatus d.userId
          (resolvePresenceStatus
            { s with activeCalls := hangupCalls s.activeCalls d.userId t } d.userId) ++
        updateUserStatus ((alGet s.activeCalls d.userId).getD t)
          (resolvePresenceStatus
            { s with activeCalls := hangupCalls s.activeCalls d.userId t }
            ((alGet s.activeCalls d.userId).getD t)) ++
        [Out.toUser t (OutMsg.relayed m d.userId)]) := by
    show handleMessage env s cid m = _
    unfold handleMessage
    rw [hcd]
    simp [hty, hto, hg, jsStr, ht, memB, directTypes]
  refine ⟨by rw [hstep], ?_, ?_, by rw [hstep]⟩
  · rw [hstep]
    show alGet (hangupCalls s.activeCalls d.userId t) d.userId = none
    unfold hangupCalls
    rw [alGet_alErase, alGet_alErase]
    by_cases h1 : d.userId = (alGet s.activeCalls d.userId).getD t
    · rw [if_pos h1]
    · rw [if_neg h1, if_pos rfl]
  · rw [hstep]
    show alGet (hangupCalls s.activeCalls d.userId t)
      ((alGet s.activeCalls d.userId).getD t) = none
    unfold hangupCalls
    rw [alGet_alErase]
    simp

theorem hangup_clears_both_sides_witness :
    alGet (step envDefault
        { users := [("a", [1])],
          connData := [(1, { userId := "a" })],
          activeCalls := [("a", "b"), ("b", "a")] }
        (.connMsg 1 { mtype := "hangup", toU := some "b" })).1.activeCalls "a" = none ∧
    alGet (step envDefault
        { users := [("a", [1])],
          connData := [(1, { userId := "a" })],
          activeCalls := [("a", "b"), ("b", "a")] }
        (.connMsg 1 { mtype := "hangup", toU := some "b" })).1.activeCalls "b" = none := by
  have h := hangup_clears_both_sides envDefault
    { users := [("a", [1])],
      connData := [(1, { userId := "a" })],
      activeCalls := [("a", "b"), ("b", "a")] }
    1 { mtype := "hangup", toU := some "b" } { userId := "a" } "b"
    (by decide) rfl rfl rfl (by decide)
  refine ⟨h.2.1, ?_⟩
  have h2 := h.2.2.1
  have hkey : ((alGet ([("a", "b"), ("b", "a")] : List (String × String)) "a").getD "b") =
      "b" := by decide
  rw [hkey] at h2
  exact h2

/-! ## Structural lemmas about leave, remove and join -/

theorem setRoomActive_get_ne {db : List (String × RoomRecord)} {r0 r : String}
    (h : r ≠ r0) (b : Bool) : alGet (setRoomActive db r0 b) r = alGet db r := by
  unfold setRoomActive
  cases hg : alGet db r0 with
  | none => rfl
  | some rec0 =>
    rw [alGet_alSet, if_neg h]

theorem handleLeaveRoom_frame (s : ServerState) (cid : Nat) (k : Bool) :
    (handleLeaveRoom s cid k).1.users = s.users ∧
    (handleLeaveRoom s cid k).1.activeCalls = s.activeCalls ∧
    (handleLeaveRoom s cid k).1.roomChats = s.roomChats := by
  unfold handleLeaveRoom
  cases hcd : alGet s.connData cid with
  | none => exact ⟨rfl, rfl, rfl⟩
  | some d =>
    dsimp only
    cases hr : d.roomId with
    | none => exact ⟨rfl, rfl, rfl⟩
    | some r0 => exact ⟨rfl, rfl, rfl⟩

theorem handleLeaveRoom_rooms_get {s : ServerState} {cid : Nat} {k : Bool} {r : String}
    (h : ∀ d, alGet s.connData cid = some d → d.roomId ≠ some r) :
    alGet (handleLeaveRoom s cid k).1.rooms r = alGet s.rooms r := by
  unfold handleLeaveRoom
  cases hcd : alGet s.connData cid with
  | none => rfl
  | some d =>
    dsimp only
    cases hr : d.roomId with
    | none => rfl
    | some r0 =>
      have hne : r ≠ r0 := by
        intro hh
        exact h d hcd (by rw [hr, hh])
      dsimp only
      cases hm : alGet s.rooms r0 with
      | none => rfl
      | some mem =>
        dsimp only
        split
        · rw [alGet_alErase, if_neg hne]
        · rw [alGet_alSet, if_neg hne]

theorem handleLeaveRoom_db_get {s : ServerState} {cid : Nat} {k : Bool} {r : String}
    (h : ∀ d, alGet s.connData cid = some d → d.roomId ≠ some r) :
    alGet (handleLeaveRoom s cid k).1.dbRooms r = alGet s.dbRooms r := by
  unfold handleLeaveRoom
  cases hcd : alGet s.connData cid with
  | none => rfl
  | some d =>
    dsimp only
    cases hr : d.roomId with
    | none => rfl
    | some r0 =>
      have hne : r ≠ r0 := by
        intro hh
        exact h d hcd (by rw [hr, hh])
      dsimp only
      split
      · rfl
      · exact setRoomActive_get_ne hne false

theorem handleLeaveRoom_not_mem {s : ServerState} {cid : Nat} {k : Bool} {d : ConnData}
    {r0 : String} (hcd : alGet s.connData cid = some d) (hr : d.roomId = some r0) :
    d.userId ∉ roomMembers (handleLeaveRoom s cid k).1 r0 := by
  unfold handleLeaveRoom roomMembers
  rw [hcd]
  dsimp only
  rw [hr]
  dsimp only
  cases hm : alGet s.rooms r0 with
  | none =>
    dsimp only
    rw [hm]
    simp
  | some mem =>
    dsimp only
    split
    · rw [alGet_alErase, if_pos rfl]
      simp
    · rw [alGet_alSet, if_pos rfl]
      simp [mem_setDel]

theorem handleLeaveRoom_mem_subset {s : ServerState} {cid : Nat} {k : Bool}
    {r u : String} (h : u ∈ roomMembers (handleLeaveRoom s cid k).1 r) :
    u ∈ roomMembers s r := by
  revert h
  unfold handleLeaveRoom roomMembers
  cases hcd : alGet s.connData cid with
  | none => exact id
  | some d =>
    dsimp only
    cases hrr : d.roomId with
    | none => exact id
    | some r0 =>
      dsimp only
      cases hm : alGet s.rooms r0 with
      | none => exact id
      | some mem =>
        dsimp only
        split <;> intro h
        · rw [alGet_alErase] at h
          by_cases hx : r = r0
          · rw [if_pos hx] at h
            simp at h
          · rw [if_neg hx] at h
            exact h
        · rw [alGet_alSet] at h
          by_cases hx : r = r0
          · rw [if_pos hx] at h
            simp only [Option.getD_some] at h
            rw [hx, hm]
            exact ((mem_setDel mem d.userId u).mp h).1
          · rw [if_neg hx] at h
            exact h

theorem handleLeaveRoom_no_toConn (s : ServerState) (cid : Nat) (k : Bool)
    (c : Nat) (mo : OutMsg) : Out.toConn c mo ∉ (handleLeaveRoom s cid k).2 := by
  unfold handleLeaveRoom
  cases hcd : alGet s.connData cid with
  | none => simp
  | some d =>
    dsimp only
    cases hrr : d.roomId with
    | none => simp
    | some r0 =>
      dsimp only
      cases hm : alGet s.rooms r0 with
      | none =>
        dsimp only
        split <;> simp
      | some mem =>
        dsimp only
        split <;> dsimp only <;> split <;> simp

theorem handleLeaveRoom_no_presence_outs (s : ServerState) (cid : Nat) (k : Bool) :
    ∀ o ∈ (handleLeaveRoom s cid k).2, presenceEffect o = false := by
  unfold handleLeaveRoom
  cases hcd : alGet s.connData cid with
  | none => simp
  | some d =>
    dsimp only
    cases hrr : d.roomId with
    | none => simp
    | some r0 =>
      dsimp only
      cases hm : alGet s.rooms r0 with
      | none =>
        dsimp only
        split <;> simp [presenceEffect]
      | some mem =>
        dsimp only
        split <;> dsimp only <;> split <;> simp [presenceEffect, isPresenceMsg]

theorem removeUserFromRoomsAux_frame (u : String) (k : Bool)
    (entries : List (String × List String)) :
    ∀ (s : ServerState) (acc : List Out),
      (removeUserFromRoomsAux u k entries s acc).1.users = s.users ∧
      (removeUserFromRoomsAux u k entries s acc).1.activeCalls = s.activeCalls ∧
      (removeUserFromRoomsAux u k entries s acc).1.roomChats = s.roomChats ∧
      (removeUserFromRoomsAux u k entries s acc).1.connData = s.connData := by
  induction entries with
  | nil =>
    intro s acc
    exact ⟨rfl, rfl, rfl, rfl⟩
  | cons e rest ih =>
    intro s acc
    obtain ⟨roomId, mem⟩ := e
    unfold removeUserFromRoomsAux
    dsimp only
    by_cases hmem : memB u mem = true
    · rw [if_pos hmem]
      exact ⟨(ih _ _).1, (ih _ _).2.1, (ih _ _).2.2.1, (ih _ _).2.2.2⟩
    · rw [if_neg hmem]
      exact ih s acc

theorem removeUserFromRoomsAux_noop (u : String) (k : Bool)
    (entries : List (String × List String)) :
    ∀ (s : ServerState) (acc : List Out),
      (∀ e ∈ entries, memB u e.2 = false) →
      removeUserFromRoomsAux u k entries s acc = (s, acc) := by
  induction entries with
  | nil =>
    intro s acc _
    rfl
  | cons e rest ih =>
    intro s acc h
    obtain ⟨roomId, mem⟩ := e
    have h1 : memB u mem = false := h (roomId, mem) (by simp)
    unfold removeUserFromRoomsAux
    dsimp only
    rw [if_neg (by simp [h1])]
    exact ih s acc (fun e he => h e (by simp [he]))

theorem removeUserFromRoomsAux_outs (u : String) (k : Bool)
    (entries : List (String × List String)) :
    ∀ (s : ServerState) (acc : List Out),
      (∀ o ∈ acc, presenceEffect o = false) →
      ∀ o ∈ (removeUserFromRoomsAux u k entries s acc).2, presenceEffect o = false := by
  induction entries with
  | nil =>
    intro s acc hacc
    exact hacc
  | cons e rest ih =>
    intro s acc hacc
    obtain ⟨roomId, mem⟩ := e
    unfold removeUserFromRoomsAux
    dsimp only
    by_cases hmem : memB u mem = true
    · rw [if_pos hmem]
      refine ih _ _ ?_
      intro o ho
      simp only [List.mem_append] at ho
      rcases ho with (ho | ho) | ho
      · exact hacc o ho
      · revert ho
        split <;> simp [presenceEffect, isPresenceMsg] <;> rintro rfl <;> rfl
      · revert ho
        split <;> simp [presenceEffect] <;> rintro rfl <;> rfl
    · rw [if_neg hmem]
      exact ih s acc hacc

theorem joinAutoLeave_frame (s : ServerState) (cid : Nat) (g : Bool) (rid : String)
    (d0 : ConnData) :
    (joinAutoLeave s cid g rid d0).1.users = s.users ∧
    (joinAutoLeave s cid g rid d0).1.activeCalls = s.activeCalls ∧
    (joinAutoLeave s cid g rid d0).1.roomChats = s.roomChats := by
  unfold joinAutoLeave
  cases hdr : d0.roomId with
  | none => exact ⟨rfl, rfl, rfl⟩
  | some r0 =>
    dsimp only
    split
    · exact handleLeaveRoom_frame s cid g
    · exact ⟨rfl, rfl, rfl⟩

theorem joinAutoLeave_rooms_get {s : ServerState} {cid : Nat} {g : Bool} {rid : String}
    {d0 : ConnData} (hcd : alGet s.connData cid = some d0) :
    alGet (joinAutoLeave s cid g rid d0).1.rooms rid = alGet s.rooms rid := by
  unfold joinAutoLeave
  cases hdr : d0.roomId with
  | none => rfl
  | some r0 =>
    dsimp only
    split
    · next hne =>
      refine handleLeaveRoom_rooms_get ?_
      intro d hd
      rw [hcd] at hd
      cases hd
      rw [hdr]
      intro hh
      exact hne (Option.some.inj hh)
    · rfl

theorem joinAutoLeave_db_get {s : ServerState} {cid : Nat} {g : Bool} {rid : String}
    {d0 : ConnData} (hcd : alGet s.connData cid = some d0) :
    alGet (joinAutoLeave s cid g rid d0).1.dbRooms rid = alGet s.dbRooms rid := by
  unfold joinAutoLeave
  cases hdr : d0.roomId with
  | none => rfl
  | some r0 =>
    dsimp only
    split
    · next hne =>
      refine handleLeaveRoom_db_get ?_
      intro d hd
      rw [hcd] at hd
      cases hd
      rw [hdr]
      intro hh
      exact hne (Option.some.inj hh)
    · rfl

theorem joinAutoLeave_mem_subset {s : ServerState} {cid : Nat} {g : Bool} {rid : String}
    {d0 : ConnData} {r u : String}
    (h : u ∈ roomMembers (joinAutoLeave s cid g rid d0).1 r) : u ∈ roomMembers s r := by
  revert h
  unfold joinAutoLeave
  cases hdr : d0.roomId with
  | none => exact id
  | some r0 =>
    dsimp only
    split
    · exact handleLeaveRoom_mem_subset
    · exact id

theorem joinAutoLeave_not_mem_prior {s : ServerState} {cid : Nat} {g : Bool}
    {rid : String} {d0 : ConnData} {r0 : String}
    (hcd : alGet s.connData cid = some d0) (hr : d0.roomId = some r0) (hne : r0 ≠ rid) :
    d0.userId ∉ roomMembers (joinAutoLeave s cid g rid d0).1 r0 := by
  unfold joinAutoLeave
  rw [hr]
  dsimp only
  rw [if_pos hne]
  exact handleLeaveRoom_not_mem hcd hr

theorem joinAutoLeave_no_toConn (s : ServerState) (cid : Nat) (g : Bool) (rid : String)
    (d0 : ConnData) (c : Nat) (mo : OutMsg) :
    Out.toConn c mo ∉ (joinAutoLeave s cid g rid d0).2 := by
  unfold joinAutoLeave
  cases hdr : d0.roomId with
  | none => simp
  | some r0 =>
    dsimp only
    split
    · exact handleLeaveRoom_no_toConn s cid g c mo
    · simp

theorem joinAutoLeave_no_presence_outs (s : ServerState) (cid : Nat) (g : Bool)
    (rid : String) (d0 : ConnData) :
    ∀ o ∈ (joinAutoLeave s cid g rid d0).2, presenceEffect o = false := by
  unfold joinAutoLeave
  cases hdr : d0.roomId with
  | none => simp
  | some r0 =>
    dsimp only
    split
    · exact handleLeaveRoom_no_presence_outs s cid g
    · simp


theorem joinMain_frame (env : Env) (s1 : ServerState) (cid : Nat) (rid : String)
    (opts : JoinOptions) (d0 : ConnData) :
    (joinMain env s1 cid rid opts d0).1.users = s1.users ∧
    (joinMain env s1 cid rid opts d0).1.activeCalls = s1.activeCalls ∧
    (joinMain env s1 cid rid opts d0).1.roomChats = s1.roomChats := by
  unfold joinMain
  dsimp only
  (repeat' split) <;> exact ⟨rfl, rfl, rfl⟩

theorem handleJoinRoom_frame (env : Env) (s : ServerState) (cid : Nat) (rid : String)
    (opts : JoinOptions) :
    (handleJoinRoom env s cid rid opts).1.users = s.users ∧
    (handleJoinRoom env s cid rid opts).1.activeCalls = s.activeCalls ∧
    (handleJoinRoom env s cid rid opts).1.roomChats = s.roomChats := by
  unfold handleJoinRoom
  cases hcd : alGet s.connData cid with
  | none => exact ⟨rfl, rfl, rfl⟩
  | some d0 =>
    dsimp only
    have hm := joinMain_frame env (joinAutoLeave s cid opts.actorIsGuest rid d0).1 cid rid opts d0
    have hl := joinAutoLeave_frame s cid opts.actorIsGuest rid d0
    exact ⟨hm.1.trans hl.1, hm.2.1.trans hl.2.1, hm.2.2.trans hl.2.2⟩


set_option maxHeartbeats 4000000 in
theorem joinMain_spec (env : Env) (s1 : ServerState) (cid : Nat) (rid : String)
    (opts : JoinOptions) (d0 : ConnData) :
    ((∃ emsg, (joinMain env s1 cid rid opts d0).2 =
        [Out.toConn cid (OutMsg.errMsg emsg)]) ∧
      (joinMain env s1 cid rid opts d0).1.rooms = s1.rooms) ∨
    ((∃ po hi,
        (joinMain env s1 cid rid opts d0).2 =
          po ++ [Out.toConn cid (OutMsg.roomJoined rid
              (setAdd (roomMembers s1 rid) d0.userId) d0.userId)] ++ hi ++
            [Out.toRoom rid (some d0.userId) (OutMsg.roomUserJoined rid d0.userId)] ∧
        (po = [] ∨ po = [Out.dbParticipantUpsert rid d0.userId]) ∧
        (hi = [] ∨ ∃ c, hi = [Out.toConn cid (OutMsg.roomMessagesSnapshot rid c)])) ∧
      (joinMain env s1 cid rid opts d0).1.rooms =
        alSet s1.rooms rid (setAdd (roomMembers s1 rid) d0.userId) ∧
      privateCheckMsg env (joinEnsure env s1 rid opts d0).1.room opts.actorIsGuest
        opts.actorAllowPrivateBypass opts.password = none ∧
      capacityBlocked (joinEnsure env s1 rid opts d0).1.room
        (roomMembers s1 rid).length = false) := by
  unfold joinMain
  dsimp only
  (repeat' split) <;>
    first
      | exact Or.inl ⟨⟨_, rfl⟩, rfl⟩
      | exact Or.inr ⟨⟨_, _, rfl, Or.inl rfl, Or.inl rfl⟩, rfl, by assumption,
          by simp only [Bool.not_eq_true] at *; assumption⟩
      | exact Or.inr ⟨⟨_, _, rfl, Or.inl rfl, Or.inr ⟨_, rfl⟩⟩, rfl, by assumption,
          by simp only [Bool.not_eq_true] at *; assumption⟩
      | exact Or.inr ⟨⟨_, _, rfl, Or.inr rfl, Or.inl rfl⟩, rfl, by assumption,
          by simp only [Bool.not_eq_true] at *; assumption⟩
      | exact Or.inr ⟨⟨_, _, rfl, Or.inr rfl, Or.inr ⟨_, rfl⟩⟩, rfl, by assumption,
          by simp only [Bool.not_eq_true] at *; assumption⟩

theorem joinMain_mem_subset (env : Env) (s1 : ServerState) (cid : Nat) (rid : String)
    (opts : JoinOptions) (d0 : ConnData) (r u : String)
    (h : u ∈ roomMembers (joinMain env s1 cid rid opts d0).1 r) :
    u ∈ roomMembers s1 r ∨ (r = rid ∧ u = d0.userId) := by
  rcases joinMain_spec env s1 cid rid opts d0 with ⟨_, hrooms⟩ | ⟨_, hrooms, _⟩
  · unfold roomMembers at h
    rw [hrooms] at h
    exact Or.inl h
  · unfold roomMembers at h
    rw [hrooms, alGet_alSet] at h
    by_cases hx : r = rid
    · rw [if_pos hx] at h
      simp only [Option.getD_some] at h
      rcases (mem_setAdd _ _ _).mp h with h1 | h1
      · exact Or.inr ⟨hx, h1⟩
      · rw [hx]
        exact Or.inl h1
    · rw [if_neg hx] at h
      exact Or.inl h

theorem joinMain_no_presence_outs (env : Env) (s1 : ServerState) (cid : Nat)
    (rid : String) (opts : JoinOptions) (d0 : ConnData) :
    ∀ o ∈ (joinMain env s1 cid rid opts d0).2, presenceEffect o = false := by
  intro o ho
  rcases joinMain_spec env s1 cid rid opts d0 with ⟨⟨emsg, houts⟩, _⟩ |
    ⟨⟨po, hi, houts, hpo, hhi⟩, _⟩
  · rw [houts] at ho
    rw [List.mem_singleton] at ho
    subst ho
    rfl
  · rw [houts] at ho
    rcases List.mem_append.mp ho with ho | ho
    · rcases List.mem_append.mp ho with ho | ho
      · rcases List.mem_append.mp ho with ho | ho
        · rcases hpo with hpo | hpo <;> rw [hpo] at ho
          · simp at ho
          · rw [List.mem_singleton] at ho
            subst ho
            rfl
        · rw [List.mem_singleton] at ho
          subst ho
          rfl
      · rcases hhi with hhi | ⟨c, hhi⟩ <;> rw [hhi] at ho
        · simp at ho
        · rw [List.mem_singleton] at ho
          subst ho
          rfl
    · rw [List.mem_singleton] at ho
      subst ho
      rfl

theorem handleJoinRoom_no_presence_outs (env : Env) (s : ServerState) (cid : Nat)
    (rid : String) (opts : JoinOptions) :
    ∀ o ∈ (handleJoinRoom env s cid rid opts).2, presenceEffect o = false := by
  unfold handleJoinRoom
  cases hcd : alGet s.connData cid with
  | none => simp
  | some d0 =>
    dsimp only
    intro o ho
    rcases List.mem_append.mp ho with ho | ho
    · exact joinAutoLeave_no_presence_outs s cid opts.actorIsGuest rid d0 o ho
    · exact joinMain_no_presence_outs env _ cid rid opts d0 o ho

theorem joinMain_capacity_reject
    {env : Env} {s1 : ServerState} {cid : Nat} {rid : String} {opts : JoinOptions}
    {d0 : ConnData} {rec : RoomRecord}
    (hgb : guestBlocked s1 rid opts.actorIsGuest = false)
    (hrec : alGet s1.dbRooms rid = some rec)
    (hact : rec.is_active = true)
    (hcap : capacityBlocked (some rec) (roomMembers s1 rid).length = true) :
    joinMain env s1 cid rid opts d0 =
      (s1, [Out.toConn cid (OutMsg.errMsg "Room is full")]) := by
  have hens : joinEnsure env s1 rid opts d0 = ({ room := some rec }, s1.dbRooms) := by
    unfold joinEnsure ensureRoomRecord
    rw [hrec]
  unfold joinMain
  dsimp only
  rw [hens]
  dsimp only
  simp only [Option.isNone_some, Bool.false_and, Bool.and_false, Bool.false_eq_true,
    if_false, Bool.not_true]
  have hin : inactiveBlocked (some rec) d0.userId = false := by
    unfold inactiveBlocked
    dsimp only
    rw [hact]
    rfl
  rw [hin]
  simp only [Bool.false_eq_true, if_false]
  have hja : joinActivate { room := some rec } s1.dbRooms rid = s1.dbRooms := by
    unfold joinActivate
    dsimp only
    rw [hact]
    rfl
  rw [hja]
  have hgb2 : guestBlocked { s1 with dbRooms := s1.dbRooms } rid opts.actorIsGuest =
      false := hgb
  rw [hgb2]
  simp only [Bool.false_eq_true, if_false]
  have hcap2 : capacityBlocked (some rec)
      (roomMembers { s1 with dbRooms := s1.dbRooms } rid).length = true := hcap
  rw [hcap2]
  simp only [eq_self_iff_true, if_true]

theorem joinMain_password_reject
    {env : Env} {s1 : ServerState} {cid : Nat} {rid : String} {opts : JoinOptions}
    {d0 : ConnData} {rec : RoomRecord} {pmsg : String}
    (hgb : guestBlocked s1 rid opts.actorIsGuest = false)
    (hrec : alGet s1.dbRooms rid = some rec)
    (hact : rec.is_active = true)
    (hcapf : capacityBlocked (some rec) (roomMembers s1 rid).length = false)
    (hpm : privateCheckMsg env (some rec) opts.actorIsGuest opts.actorAllowPrivateBypass
      opts.password = some pmsg) :
    joinMain env s1 cid rid opts d0 =
      (s1, [Out.toConn cid (OutMsg.errMsg pmsg)]) := by
  have hens : joinEnsure env s1 rid opts d0 = ({ room := some rec }, s1.dbRooms) := by
    unfold joinEnsure ensureRoomRecord
    rw [hrec]
  unfold joinMain
  dsimp only
  rw [hens]
  dsimp only
  simp only [Option.isNone_some, Bool.false_and, Bool.and_false, Bool.false_eq_true,
    if_false, Bool.not_true]
  have hin : inactiveBlocked (some rec) d0.userId = false := by
    unfold inactiveBlocked
    dsimp only
    rw [hact]
    rfl
  rw [hin]
  simp only [Bool.false_eq_true, if_false]
  have hja : joinActivate { room := some rec } s1.dbRooms rid = s1.dbRooms := by
    unfold joinActivate
    dsimp only
    rw [hact]
    rfl
  rw [hja]
  have hgb2 : guestBlocked { s1 with dbRooms := s1.dbRooms } rid opts.actorIsGuest =
      false := hgb
  rw [hgb2]
  simp only [Bool.false_eq_true, if_false]
  have hcap2 : capacityBlocked (some rec)
      (roomMembers { s1 with dbRooms := s1.dbRooms } rid).length = false := hcapf
  rw [hcap2]
  simp only [Bool.false_eq_true, if_false]
  rw [hpm]

theorem joinMain_guest_no_nonguest_reject
    {env : Env} {s1 : ServerState} {cid : Nat} {rid : String} {opts : JoinOptions}
    {d0 : ConnData}
    (hguest : opts.actorIsGuest = true)
    (hmem : ∀ u ∈ roomMembers s1 rid, strStartsWith u "guest:" = true) :
    (joinMain env s1 cid rid opts d0).1.rooms = s1.rooms ∧
    ∃ emsg, (joinMain env s1 cid rid opts d0).2 =
      [Out.toConn cid (OutMsg.errMsg emsg)] := by
  unfold joinMain
  dsimp only
  rw [hguest]
  simp only [Bool.true_and]
  by_cases h1 : ((joinEnsure env s1 rid opts d0).1.room.isNone && !alHas s1.rooms rid) = true
  · rw [if_pos h1]
    exact ⟨rfl, _, rfl⟩
  · rw [if_neg h1]
    by_cases h2 : (!(joinEnsure env s1 rid opts d0).1.allowed) = true
    · rw [if_pos h2]
      exact ⟨rfl, _, rfl⟩
    · rw [if_neg h2]
      by_cases h3 : inactiveBlocked (joinEnsure env s1 rid opts d0).1.room d0.userId = true
      · rw [if_pos h3]
        exact ⟨rfl, _, rfl⟩
      · rw [if_neg h3]
        have h4 : guestBlocked
            { s1 with
              dbRooms := (joinActivate (joinEnsure env s1 rid opts d0).1
                (joinEnsure env s1 rid opts d0).2 rid) } rid true = true := by
          unfold guestBlocked
          simp only [Bool.true_and]
          cases hm : alGet s1.rooms rid with
          | none => rfl
          | some mem =>
            dsimp only
            have hany : mem.any (fun uid => !strStartsWith uid "guest:") = false := by
              rw [List.any_eq_false]
              intro uid huid
              have := hmem uid (by unfold roomMembers; rw [hm]; exact huid)
              simp [this]
            rw [hany]
            rfl
        rw [if_pos h4]
        exact ⟨rfl, _, rfl⟩

theorem setAdd_length {α : Type} [DecidableEq α] (s : List α) (x : α) :
    (setAdd s x).length ≤ s.length + 1 := by
  unfold setAdd
  split
  · exact Nat.le_succ _
  · exact Nat.le_refl _

theorem joinMain_capacity_bound
    {env : Env} {s1 : ServerState} {cid : Nat} {rid : String} {opts : JoinOptions}
    {d0 : ConnData} {rec : RoomRecord} {n : Int}
    (hrec : alGet s1.dbRooms rid = some rec)
    (hmax : rec.max_participants = some n) (hn : 0 < n)
    (hsize : ((roomMembers s1 rid).length : Int) ≤ n) :
    ((roomMembers (joinMain env s1 cid rid opts d0).1 rid).length : Int) ≤ n := by
  have hens : joinEnsure env s1 rid opts d0 = ({ room := some rec }, s1.dbRooms) := by
    unfold joinEnsure ensureRoomRecord
    rw [hrec]
  rcases joinMain_spec env s1 cid rid opts d0 with ⟨_, hrooms⟩ | ⟨_, hrooms, _, hcap⟩
  · unfold roomMembers
    rw [hrooms]
    exact hsize
  · rw [hens] at hcap
    dsimp only at hcap
    unfold capacityBlocked at hcap
    dsimp only at hcap
    rw [hmax] at hcap
    dsimp only at hcap
    simp only [Bool.and_eq_false_iff, decide_eq_false_iff_not, not_lt, not_le] at hcap
    rcases hcap with hcap | hcap
    · exact absurd hn (by omega)
    · unfold roomMembers
      rw [hrooms, alGet_alSet, if_pos rfl]
      simp only [Option.getD_some]
      have hlen := setAdd_length (roomMembers s1 rid) d0.userId
      omega

theorem handleJoinRoom_mem_subset (env : Env) (s : ServerState) (cid : Nat)
    (rid : String) (opts : JoinOptions) (r u : String)
    (h : u ∈ roomMembers (handleJoinRoom env s cid rid opts).1 r) :
    u ∈ roomMembers s r ∨
      (r = rid ∧ ∃ d0, alGet s.connData cid = some d0 ∧ u = d0.userId) := by
  revert h
  unfold handleJoinRoom
  cases hcd : alGet s.connData cid with
  | none => exact Or.inl
  | some d0 =>
    dsimp only
    intro h
    rcases joinMain_mem_subset env _ cid rid opts d0 r u h with h1 | ⟨hr, hu⟩
    · exact Or.inl (joinAutoLeave_mem_subset h1)
    · exact Or.inr ⟨hr, d0, rfl, hu⟩

/-- The guest gate of rooms.ts lines 237-246 only depends on the live
member list of the target room, which the auto-leave preserves. -/
theorem joinAutoLeave_guestBlocked {s : ServerState} {cid : Nat} {g0 : Bool}
    {rid : String} {d0 : ConnData} (hcd : alGet s.connData cid = some d0) (g : Bool) :
    guestBlocked (joinAutoLeave s cid g0 rid d0).1 rid g = guestBlocked s rid g := by
  unfold guestBlocked
  rw [joinAutoLeave_rooms_get hcd]

/-- A firing guest gate means the actor is a guest and every live member of
the target room carries the guest prefix. -/
theorem guestBlocked_elim {s : ServerState} {rid : String} {g : Bool}
    (h : guestBlocked s rid g = true) :
    g = true ∧ ∀ u ∈ roomMembers s rid, strStartsWith u "guest:" = true := by
  unfold guestBlocked at h
  rw [Bool.and_eq_true] at h
  refine ⟨h.1, ?_⟩
  have h2 := h.2
  rw [Bool.not_eq_true'] at h2
  intro u hu
  unfold roomMembers at hu
  cases hm : alGet s.rooms rid with
  | none =>
    rw [hm] at hu
    cases hu
  | some mem =>
    rw [hm] at h2 hu
    have h3 := List.any_eq_false.mp h2 u hu
    cases hb : strStartsWith u "guest:" with
    | true => rfl
    | false => exact absurd (by rw [hb]; rfl) h3

/-- Claim C7 (amended): for a join of a room whose persisted record
declares a positive maximum participant count N, if the live member set
already has at least N members and the room passed the earlier existence
and activity checks, the join is rejected with some error and the target
room membership is unchanged; the error is the capacity error Room is full
whenever the guest gate does not fire first (in particular for every
non-guest join); and whatever the actor and outcome, the live member count
of the room never exceeds N.  (As stated the claim is false: when an
earlier validation rejects first, e.g. an inactive room, the error is that
check's message, not the capacity error — see the counterexample.) -/
theorem room_capacity_enforced
    (env : Env) (s : ServerState) (cid : Nat) (rid : String) (opts : JoinOptions)
    (d0 : ConnData) (rec : RoomRecord) (n : Int)
    (hcd : alGet s.connData cid = some d0)
    (hrec : alGet s.dbRooms rid = some rec)
    (hmax : rec.max_participants = some n) (hn : 0 < n) :
    (n ≤ ((roomMembers s rid).length : Int) → rec.is_active = true →
      (∃ emsg, Out.toConn cid (OutMsg.errMsg emsg) ∈
          (handleJoinRoom env s cid rid opts).2) ∧
      alGet (handleJoinRoom env s cid rid opts).1.rooms rid = alGet s.rooms rid ∧
      (guestBlocked s rid opts.actorIsGuest = false →
        Out.toConn cid (OutMsg.errMsg "Room is full") ∈
          (handleJoinRoom env s cid rid opts).2)) ∧
    (((roomMembers s rid).length : Int) ≤ n →
      ((roomMembers (handleJoinRoom env s cid rid opts).1 rid).length : Int) ≤ n) := by
  have hrm : roomMembers (joinAutoLeave s cid opts.actorIsGuest rid d0).1 rid =
      roomMembers s rid := by
    unfold roomMembers
    rw [joinAutoLeave_rooms_get hcd]
  have hdb1 : alGet (joinAutoLeave s cid opts.actorIsGuest rid d0).1.dbRooms rid =
      some rec := by
    rw [joinAutoLeave_db_get hcd]
    exact hrec
  constructor
  · intro hsz hact
    cases hgb : guestBlocked s rid opts.actorIsGuest with
    | false =>
      have hcap : capacityBlocked (some rec)
          (roomMembers (joinAutoLeave s cid opts.actorIsGuest rid d0).1 rid).length =
            true := by
        rw [hrm]
        unfold capacityBlocked
        dsimp only
        rw [hmax]
        dsimp only
        simp [hn, hsz]
      have hgb1 : guestBlocked (joinAutoLeave s cid opts.actorIsGuest rid d0).1 rid
          opts.actorIsGuest = false := by
        rw [joinAutoLeave_guestBlocked hcd]
        exact hgb
      have hjm := @joinMain_capacity_reject env _ cid _ opts d0 _ hgb1 hdb1 hact hcap
      have hh : handleJoinRoom env s cid rid opts =
          ((joinAutoLeave s cid opts.actorIsGuest rid d0).1,
           (joinAutoLeave s cid opts.actorIsGuest rid d0).2 ++
             [Out.toConn cid (OutMsg.errMsg "Room is full")]) := by
        unfold handleJoinRoom
        rw [hcd]
        dsimp only
        rw [hjm]
      rw [hh]
      exact ⟨⟨"Room is full", by simp⟩, joinAutoLeave_rooms_get hcd, fun _ => by simp⟩
    | true =>
      rcases guestBlocked_elim hgb with ⟨hg, hmem⟩
      have hmem1 : ∀ u ∈ roomMembers (joinAutoLeave s cid opts.actorIsGuest rid d0).1
          rid, strStartsWith u "guest:" = true := by
        rw [hrm]
        exact hmem
      obtain ⟨hrooms, emsg, houts⟩ := @joinMain_guest_no_nonguest_reject env
        (joinAutoLeave s cid opts.actorIsGuest rid d0).1 cid rid opts d0 hg hmem1
      have hh : handleJoinRoom env s cid rid opts =
          ((joinMain env (joinAutoLeave s cid opts.actorIsGuest rid d0).1 cid rid
              opts d0).1,
           (joinAutoLeave s cid opts.actorIsGuest rid d0).2 ++
             (joinMain env (joinAutoLeave s cid opts.actorIsGuest rid d0).1 cid rid
               opts d0).2) := by
        unfold handleJoinRoom
        rw [hcd]
      refine ⟨⟨emsg, ?_⟩, ?_, fun hf => Bool.noConfusion hf⟩
      · rw [hh, houts]
        simp
      · rw [hh]
        dsimp only
        rw [hrooms]
        exact joinAutoLeave_rooms_get hcd
  · intro hsz
    have hb := @joinMain_capacity_bound env _ cid _ opts d0 _ _ hdb1 hmax hn
      (by rw [hrm]; exact hsz)
    have hh1 : (handleJoinRoom env s cid rid opts).1 =
        (joinMain env (joinAutoLeave s cid opts.actorIsGuest rid d0).1 cid rid opts d0).1 := by
      unfold handleJoinRoom
      rw [hcd]
    rw [hh1]
    exact hb

/-- Claim C7 as stated is false: joining an inactive room that is also at
capacity is rejected with the error Room inactive, not the capacity error
Room is full (the activity check runs first). -/
theorem room_capacity_error_counterexample :
    Out.toConn 1 (OutMsg.errMsg "Room inactive") ∈
        (step envDefault
          { users := [("a", [1])],
            connData := [(1, { userId := "a" })],
            rooms := [("r2", ["b"])],
            dbRooms := [("r2", { created_by := "z", is_active := false,
                                 max_participants := some 1 })] }
          (.connMsg 1 { mtype := "join-room", roomId := some "r2" })).2 ∧
    Out.toConn 1 (OutMsg.errMsg "Room is full") ∉
        (step envDefault
          { users := [("a", [1])],
            connData := [(1, { userId := "a" })],
            rooms := [("r2", ["b"])],
            dbRooms := [("r2", { created_by := "z", is_active := false,
                                 max_participants := some 1 })] }
          (.connMsg 1 { mtype := "join-room", roomId := some "r2" })).2 ∧
    (step envDefault
          { users := [("a", [1])],
            connData := [(1, { userId := "a" })],
            rooms := [("r2", ["b"])],
            dbRooms := [("r2", { created_by := "z", is_active := false,
                                 max_participants := some 1 })] }
          (.connMsg 1 { mtype := "join-room", roomId := some "r2" })).1.rooms =
      [("r2", ["b"])] := by
  decide

theorem room_capacity_enforced_witness :
    (∃ emsg, Out.toConn 1 (OutMsg.errMsg emsg) ∈
        (handleJoinRoom envDefault
          { users := [("a", [1])],
            connData := [(1, { userId := "a" })],
            rooms := [("r2", ["b"])],
            dbRooms := [("r2", { max_participants := some 1 })] }
          1 "r2" {}).2) ∧
    alGet (handleJoinRoom envDefault
          { users := [("a", [1])],
            connData := [(1, { userId := "a" })],
            rooms := [("r2", ["b"])],
            dbRooms := [("r2", { max_participants := some 1 })] }
          1 "r2" {}).1.rooms "r2" =
        alGet ([("r2", ["b"])] : List (String × List String)) "r2" ∧
    (guestBlocked
          { users := [("a", [1])],
            connData := [(1, { userId := "a" })],
            rooms := [("r2", ["b"])],
            dbRooms := [("r2", { max_participants := some 1 })] }
          "r2" ({} : JoinOptions).actorIsGuest = false →
      Out.toConn 1 (OutMsg.errMsg "Room is full") ∈
        (handleJoinRoom envDefault
          { users := [("a", [1])],
            connData := [(1, { userId := "a" })],
            rooms := [("r2", ["b"])],
            dbRooms := [("r2", { max_participants := some 1 })] }
          1 "r2" {}).2) :=
  (room_capacity_enforced envDefault
      { users := [("a", [1])],
        connData := [(1, { userId := "a" })],
        rooms := [("r2", ["b"])],
        dbRooms := [("r2", { max_participants := some 1 })] }
      1 "r2" {} { userId := "a" } { max_participants := some 1 } 1
      (by decide) (by decide) rfl (by decide)).1 (by decide) rfl

/-- Claim C4 (amended): a rejection for an invariant violation — a
call-collision offer, a join of a room at capacity, or a missing or wrong
password on a private room — sends the specific error to the requester,
creates or removes no active-call entry, and leaves the target room's
membership unchanged (no half-joined room); for the offer the whole state
is untouched.  The join half covers guest and non-guest joiners alike: the
only proviso is that the guest gate did not fire, which is exactly what the
code requires for control to reach the capacity and password checks.
However, the requester's prior room membership is NOT preserved on a
rejected join: the auto-leave of the prior room runs before validation, so
after the rejection the requester is no longer a member of the room it was
in.  (As stated — prior membership intact — the claim is false; see the
counterexample.) -/
theorem invariant_rejections_atomic
    (env : Env) (s : ServerState) (cid : Nat) :
    (∀ (m : InMsg) (d : ConnData) (b : String),
      alGet s.connData cid = some d → d.isGuest = false → m.mtype = "offer" →
      m.toU = some b → b ≠ "" →
      (alHas s.activeCalls b || alHas s.activeCalls d.userId ||
        isUserInAnyRoom s b || isUserInAnyRoom s d.userId) = true →
      step env s (.connMsg cid m) =
        (s, [Out.toUser d.userId (OutMsg.hangupSynth b "rejected")])) ∧
    (∀ (rid : String) (opts : JoinOptions) (d0 : ConnData) (rec : RoomRecord)
        (pmsg : String),
      alGet s.connData cid = some d0 →
      guestBlocked s rid opts.actorIsGuest = false →
      alGet s.dbRooms rid = some rec → rec.is_active = true →
      ((capacityBlocked (some rec) (roomMembers s rid).length = true ∧
          pmsg = "Room is full") ∨
        (capacityBlocked (some rec) (roomMembers s rid).length = false ∧
          privateCheckMsg env (some rec) opts.actorIsGuest opts.actorAllowPrivateBypass
            opts.password = some pmsg)) →
      Out.toConn cid (OutMsg.errMsg pmsg) ∈ (handleJoinRoom env s cid rid opts).2 ∧
      (handleJoinRoom env s cid rid opts).1.activeCalls = s.activeCalls ∧
      alGet (handleJoinRoom env s cid rid opts).1.rooms rid = alGet s.rooms rid ∧
      (∀ ul sid, Out.toConn cid (OutMsg.roomJoined rid ul sid) ∉
        (handleJoinRoom env s cid rid opts).2) ∧
      (∀ r0, d0.roomId = some r0 → r0 ≠ rid →
        d0.userId ∉ roomMembers (handleJoinRoom env s cid rid opts).1 r0)) := by
  constructor
  · intro m d b hcd hg hty hto hb hbusy
    exact offer_reject_step env s cid m d b hcd hg hty hto hb hbusy
  · intro rid opts d0 rec pmsg hcd hgbs hrec hact hviol
    have hrm : roomMembers (joinAutoLeave s cid opts.actorIsGuest rid d0).1 rid =
        roomMembers s rid := by
      unfold roomMembers
      rw [joinAutoLeave_rooms_get hcd]
    have hdb1 : alGet (joinAutoLeave s cid opts.actorIsGuest rid d0).1.dbRooms rid =
        some rec := by
      rw [joinAutoLeave_db_get hcd]
      exact hrec
    have hgb1 : guestBlocked (joinAutoLeave s cid opts.actorIsGuest rid d0).1 rid
        opts.actorIsGuest = false := by
      rw [joinAutoLeave_guestBlocked hcd]
      exact hgbs
    have hjm : joinMain env (joinAutoLeave s cid opts.actorIsGuest rid d0).1 cid rid
        opts d0 =
        ((joinAutoLeave s cid opts.actorIsGuest rid d0).1,
         [Out.toConn cid (OutMsg.errMsg pmsg)]) := by
      rcases hviol with ⟨hcap, hmsg⟩ | ⟨hcap, hpm⟩
      · rw [hmsg]
        exact joinMain_capacity_reject hgb1 hdb1 hact (by rw [hrm]; exact hcap)
      · exact joinMain_password_reject hgb1 hdb1 hact (by rw [hrm]; exact hcap) hpm
    have hh : handleJoinRoom env s cid rid opts =
        ((joinAutoLeave s cid opts.actorIsGuest rid d0).1,
         (joinAutoLeave s cid opts.actorIsGuest rid d0).2 ++
           [Out.toConn cid (OutMsg.errMsg pmsg)]) := by
      unfold handleJoinRoom
      rw [hcd]
      dsimp only
      rw [hjm]
    refine ⟨?_, ?_, ?_, ?_, ?_⟩
    · rw [hh]
      simp
    · rw [hh]
      exact (joinAutoLeave_frame s cid opts.actorIsGuest rid d0).2.1
    · rw [hh]
      exact joinAutoLeave_rooms_get hcd
    · intro ul sid hmem
      rw [hh] at hmem
      rcases List.mem_append.mp hmem with hmem | hmem
      · exact joinAutoLeave_no_toConn s cid opts.actorIsGuest rid d0 cid
          (OutMsg.roomJoined rid ul sid) hmem
      · rw [List.mem_singleton] at hmem
        exact Out.noConfusion hmem (fun _ h2 => OutMsg.noConfusion h2)
    · intro r0 hr0 hne
      rw [hh]
      exact joinAutoLeave_not_mem_prior hcd hr0 hne

/-- Claim C4 as stated is false: a join of the full room r2 by a user
currently in r1 is rejected with Room is full, yet the requester's prior
membership in r1 is already gone (the auto-leave ran before validation and
r1, emptied, was deleted). -/
theorem invariant_rejections_counterexample :
    Out.toConn 1 (OutMsg.errMsg "Room is full") ∈
        (step envDefault
          { users := [("a", [1])],
            connData := [(1, { userId := "a", roomId := some "r1" })],
            rooms := [("r1", ["a"]), ("r2", ["b"])],
            dbRooms := [("r2", { max_participants := some 1 })] }
          (.connMsg 1 { mtype := "join-room", roomId := some "r2" })).2 ∧
    alGet (step envDefault
          { users := [("a", [1])],
            connData := [(1, { userId := "a", roomId := some "r1" })],
            rooms := [("r1", ["a"]), ("r2", ["b"])],
            dbRooms := [("r2", { max_participants := some 1 })] }
          (.connMsg 1 { mtype := "join-room", roomId := some "r2" })).1.rooms "r1" =
      none := by
  decide

theorem invariant_rejections_atomic_witness :
    Out.toConn 1 (OutMsg.errMsg "Room is full") ∈
        (handleJoinRoom envDefault
          { users := [("a", [1])],
            connData := [(1, { userId := "a", roomId := some "r1" })],
            rooms := [("r1", ["a"]), ("r2", ["b"])],
            dbRooms := [("r2", { max_participants := some 1 })] }
          1 "r2" {}).2 ∧
    (handleJoinRoom envDefault
          { users := [("a", [1])],
            connData := [(1, { userId := "a", roomId := some "r1" })],
            rooms := [("r1", ["a"]), ("r2", ["b"])],
            dbRooms := [("r2", { max_participants := some 1 })] }
          1 "r2" {}).1.activeCalls = [] := by
  have h := (invariant_rejections_atomic envDefault
      { users := [("a", [1])],
        connData := [(1, { userId := "a", roomId := some "r1" })],
        rooms := [("r1", ["a"]), ("r2", ["b"])],
        dbRooms := [("r2", { max_participants := some 1 })] }
      1).2 "r2" {} { userId := "a", roomId := some "r1" }
      { max_participants := some 1 } "Room is full"
      (by decide) (by decide) (by decide) rfl (Or.inl ⟨by decide, rfl⟩)
  exact ⟨h.1, h.2.1⟩

/-- Claim C5: a join of a room whose persisted record marks it private
succeeds only when the supplied password verifies against the stored hash,
or the joiner holds a private-room bypass grant from a guest credential, or
the joining user holds a membership role in the persisted membership store
(the code in fact never consults the role store, so every successful join
satisfies one of the first two disjuncts). -/
theorem private_join_requires_authorization
    (env : Env) (s : ServerState) (cid : Nat) (rid : String) (opts : JoinOptions)
    (d0 : ConnData) (rec : RoomRecord) (ul : List String) (sid : String)
    (hcd : alGet s.connData cid = some d0)
    (hrec : alGet s.dbRooms rid = some rec)
    (hpriv : rec.is_private = true)
    (hjoin : Out.toConn cid (OutMsg.roomJoined rid ul sid) ∈
      (handleJoinRoom env s cid rid opts).2) :
    (∃ h, rec.password_hash = some h ∧
        env.verifyPw (jsTrim (opts.password.getD "")) h = true) ∨
    (opts.actorIsGuest = true ∧ opts.actorAllowPrivateBypass = true) ∨
    (env.memberRole rid d0.userId).isSome = true := by
  unfold handleJoinRoom at hjoin
  rw [hcd] at hjoin
  dsimp only at hjoin
  rcases List.mem_append.mp hjoin with hj | hj
  · exact absurd hj (joinAutoLeave_no_toConn s cid opts.actorIsGuest rid d0 cid _)
  · rcases joinMain_spec env (joinAutoLeave s cid opts.actorIsGuest rid d0).1 cid rid
      opts d0 with ⟨⟨emsg, houts⟩, _⟩ | ⟨_, _, hpc, _⟩
    · rw [houts, List.mem_singleton] at hj
      exact Out.noConfusion hj (fun _ h2 => OutMsg.noConfusion h2)
    · have hdb1 : alGet (joinAutoLeave s cid opts.actorIsGuest rid d0).1.dbRooms rid =
          some rec := by
        rw [joinAutoLeave_db_get hcd]
        exact hrec
      have hens : joinEnsure env (joinAutoLeave s cid opts.actorIsGuest rid d0).1 rid
          opts d0 =
          ({ room := some rec },
           (joinAutoLeave s cid opts.actorIsGuest rid d0).1.dbRooms) := by
        unfold joinEnsure ensureRoomRecord
        rw [hdb1]
      rw [hens] at hpc
      dsimp only at hpc
      by_cases hb : (opts.actorIsGuest && opts.actorAllowPrivateBypass) = true
      · exact Or.inr (Or.inl (Bool.and_eq_true _ _ |>.mp hb))
      · have hf : (opts.actorIsGuest && opts.actorAllowPrivateBypass) = false := by
          cases h2 : opts.actorIsGuest && opts.actorAllowPrivateBypass with
          | false => rfl
          | true => exact absurd h2 hb
        unfold privateCheckMsg at hpc
        dsimp only at hpc
        rw [hpriv, hf] at hpc
        simp only [Bool.true_and, Bool.not_false, eq_self_iff_true, if_true] at hpc
        by_cases hpw : (jsTrim (opts.password.getD "")) = ""
        · rw [if_pos hpw] at hpc
          exact absurd hpc (by simp)
        · rw [if_neg hpw] at hpc
          cases hh : rec.password_hash with
          | none =>
            rw [hh] at hpc
            exact absurd hpc (by simp)
          | some hsh =>
            rw [hh] at hpc
            dsimp only at hpc
            by_cases hv : env.verifyPw (jsTrim (opts.password.getD "")) hsh = true
            · exact Or.inl ⟨hsh, rfl, hv⟩
            · rw [if_neg hv] at hpc
              exact absurd hpc (by simp)

theorem private_join_requires_authorization_witness :
    (∃ h, (RoomRecord.password_hash
        { is_private := true, password_hash := some "secret" }) = some h ∧
      envDefault.verifyPw (jsTrim ((some "secret" : Option String).getD "")) h = true) ∨
    ((JoinOptions.actorIsGuest { password := some "secret" }) = true ∧
      (JoinOptions.actorAllowPrivateBypass { password := some "secret" }) = true) ∨
    (envDefault.memberRole "r" "a").isSome = true :=
  private_join_requires_authorization envDefault
    { users := [("a", [1])],
      connData := [(1, { userId := "a" })],
      dbRooms := [("r", { is_private := true, password_hash := some "secret" })] }
    1 "r" { password := some "secret" } { userId := "a" }
    { is_private := true, password_hash := some "secret" } ["a"] "a"
    (by decide) (by decide) rfl (by decide)

theorem guest_msg_no_room_add
    (env : Env) (s : ServerState) (cid : Nat) (m : InMsg) (d : ConnData) (r u : String)
    (hcd : alGet s.connData cid = some d) (hg : d.isGuest = true)
    (h : u ∈ roomMembers (step env s (.connMsg cid m)).1 r) : u ∈ roomMembers s r := by
  revert h
  show u ∈ roomMembers (handleMessage env s cid m).1 r → _
  unfold handleMessage
  rw [hcd]
  dsimp only
  rw [hg]
  simp only [Bool.not_true, Bool.false_eq_true, if_false, if_true, eq_self_iff_true,
    ite_true, ite_false]
  intro h
  by_cases h1 : m.mtype = "presence-pong"
  · rw [if_pos h1] at h
    exact h
  · rw [if_neg h1] at h
    by_cases h2 : memB m.mtype directTypes = true
    · rw [if_pos h2] at h
      exact h
    · rw [if_neg h2] at h
      by_cases h3 : m.mtype = "typing"
      · rw [if_pos h3] at h
        exact h
      · rw [if_neg h3] at h
        by_cases h4 : memB m.mtype roomSignalTypes = true
        · rw [if_pos h4] at h
          (repeat' split at h) <;> exact h
        · rw [if_neg h4] at h
          by_cases h5 : m.mtype = "join-room-chat"
          · rw [if_pos h5] at h
            (repeat' split at h) <;> exact h
          · rw [if_neg h5] at h
            by_cases h6 : m.mtype = "leave-room-chat"
            · rw [if_pos h6] at h
              (repeat' split at h) <;> exact h
            · rw [if_neg h6] at h
              by_cases h7 : m.mtype = "room-message"
              · rw [if_pos h7] at h
                (repeat' split at h) <;> exact h
              · rw [if_neg h7] at h
                by_cases h8 : m.mtype = "join-room"
                · rw [if_pos h8] at h
                  exact h
                · rw [if_neg h8] at h
                  by_cases h9 : m.mtype = "leave-room"
                  · rw [if_pos h9] at h
                    exact handleLeaveRoom_mem_subset h
                  · rw [if_neg h9] at h
                    by_cases h10 : m.mtype = "start-call"
                    · rw [if_pos h10] at h
                      exact h
                    · rw [if_neg h10] at h
                      exact h

theorem guest_open_adds_only_credential_room
    (env : Env) (s : ServerState) (cid : Nat) (od : OpenData) (r u : String)
    (hg : od.isGuest = true)
    (h : u ∈ roomMembers (step env s (.connOpen cid od)).1 r) :
    u ∈ roomMembers s r ∨ (od.guestRoomId = some r ∧ u = od.userId) := by
  revert h
  show u ∈ roomMembers (handleOpen env s cid od).1 r → _
  unfold handleOpen
  dsimp only
  rw [hg]
  simp only [Bool.true_and, Bool.not_true, Bool.and_false, Bool.false_eq_true, if_false,
    ite_false]
  by_cases hgr : jsStr od.guestRoomId = ""
  · have hc : decide (jsStr od.guestRoomId ≠ "") = false := by
      simp [hgr]
    rw [hc]
    simp only [Bool.false_eq_true, if_false, ite_false]
    intro h
    exact Or.inl h
  · have hc : decide (jsStr od.guestRoomId ≠ "") = true := by
      simp [hgr]
    rw [hc]
    simp only [if_true, eq_self_iff_true, ite_true]
    intro h
    rcases handleJoinRoom_mem_subset env _ cid (jsStr od.guestRoomId) _ r u h with
      h1 | ⟨hr, d0, hd0, hu⟩
    · exact Or.inl h1
    · have hd0' :
          d0 =
            ({ userId := od.userId, isGuest := true, guestRoomId := od.guestRoomId,
               guestAllowPrivate := od.guestAllowPrivate } : ConnData) := by
        rw [alGet_alSet, if_pos rfl] at hd0
        exact (Option.some.inj hd0).symm
      refine Or.inr ⟨?_, by rw [hu, hd0']⟩
      cases hov : od.guestRoomId with
      | none =>
        rw [hov] at hgr
        exact absurd rfl hgr
      | some g =>
        rw [hov] at hr
        rw [hr]
        rfl

theorem guest_open_rejected_without_member
    (env : Env) (s : ServerState) (cid : Nat) (od : OpenData) (g : String)
    (hg : od.isGuest = true) (hgr : od.guestRoomId = some g) (hgne : g ≠ "")
    (hmem : ∀ u ∈ roomMembers s g, strStartsWith u "guest:" = true) :
    (step env s (.connOpen cid od)).1.rooms = s.rooms ∧
    ∃ emsg, Out.toConn cid (OutMsg.errMsg emsg) ∈ (step env s (.connOpen cid od)).2 := by
  show (handleOpen env s cid od).1.rooms = s.rooms ∧
    ∃ emsg, Out.toConn cid (OutMsg.errMsg emsg) ∈ (handleOpen env s cid od).2
  unfold handleOpen
  dsimp only
  rw [hg, hgr]
  simp only [Bool.not_true, Bool.and_false, Bool.false_eq_true, if_false, ite_false,
    Bool.true_and, jsStr, Option.getD_some]
  have hc : decide (g ≠ "") = true := by
    simp [hgne]
  rw [hc]
  simp only [if_true, eq_self_iff_true, ite_true]
  unfold handleJoinRoom
  rw [alGet_alSet, if_pos rfl]
  dsimp only
  unfold joinAutoLeave
  dsimp only
  have hjm := @joinMain_guest_no_nonguest_reject env
    { s with
      connData := alSet s.connData cid
        { userId := od.userId, isGuest := true, guestRoomId := some g,
          guestAllowPrivate := od.guestAllowPrivate },
      users := alSet s.users od.userId (setAdd ((alGet s.users od.userId).getD []) cid) }
    cid g
    { actorIsGuest := true, actorAllowPrivateBypass := od.guestAllowPrivate }
    { userId := od.userId, isGuest := true, guestRoomId := some g,
      guestAllowPrivate := od.guestAllowPrivate }
    rfl (fun u hu => hmem u hu)
  constructor
  · exact hjm.1
  · obtain ⟨emsg, houts⟩ := hjm.2
    refine ⟨emsg, ?_⟩
    rw [houts]
    simp

/-- Claim C6: a guest connection is only ever joined into the room named by
its guest credential — guest messages never add any room membership, and a
guest open adds at most its own user to exactly the credential room — and a
guest join into a room whose live member set has no non-guest user is
rejected with an error and changes no membership. -/
theorem guest_join_restriction :
    (∀ (env : Env) (s : ServerState) (cid : Nat) (m : InMsg) (d : ConnData) (r u : String),
      alGet s.connData cid = some d → d.isGuest = true →
      u ∈ roomMembers (step env s (.connMsg cid m)).1 r → u ∈ roomMembers s r) ∧
    (∀ (env : Env) (s : ServerState) (cid : Nat) (od : OpenData) (r u : String),
      od.isGuest = true →
      u ∈ roomMembers (step env s (.connOpen cid od)).1 r →
      u ∈ roomMembers s r ∨ (od.guestRoomId = some r ∧ u = od.userId)) ∧
    (∀ (env : Env) (s : ServerState) (cid : Nat) (od : OpenData) (g : String),
      od.isGuest = true → od.guestRoomId = some g → g ≠ "" →
      (∀ u ∈ roomMembers s g, strStartsWith u "guest:" = true) →
      (step env s (.connOpen cid od)).1.rooms = s.rooms ∧
      ∃ emsg, Out.toConn cid (OutMsg.errMsg emsg) ∈ (step env s (.connOpen cid od)).2) :=
  ⟨fun env s cid m d r u hcd hg h => guest_msg_no_room_add env s cid m d r u hcd hg h,
   fun env s cid od r u hg h => guest_open_adds_only_credential_room env s cid od r u hg h,
   fun env s cid od g hg hgr hgne hmem =>
     guest_open_rejected_without_member env s cid od g hg hgr hgne hmem⟩

theorem guest_join_restriction_witness :
    (step envDefault
        { rooms := [("r", ["guest:z"])], dbRooms := [("r", {})] }
        (.connOpen 1 { userId := "guest:w", isGuest := true,
                       guestRoomId := some "r" })).1.rooms =
      ({ rooms := [("r", ["guest:z"])], dbRooms := [("r", {})] } : ServerState).rooms ∧
    ∃ emsg, Out.toConn 1 (OutMsg.errMsg emsg) ∈
      (step envDefault
        { rooms := [("r", ["guest:z"])], dbRooms := [("r", {})] }
        (.connOpen 1 { userId := "guest:w", isGuest := true,
                       guestRoomId := some "r" })).2 :=
  guest_join_restriction.2.2 envDefault
    { rooms := [("r", ["guest:z"])], dbRooms := [("r", {})] }
    1 { userId := "guest:w", isGuest := true, guestRoomId := some "r" } "r"
    rfl rfl (by decide) (by decide)

/-- Claim C9: closing a connection that has already been fully cleaned up
(its id absent from its user's registry set, its chat subscriptions cleared,
its user in no room and in no active call) removes no other connection,
leaves the registry extensionally unchanged and the room, chat-subscription,
call, message-cache and persisted-room tables literally unchanged, and emits
no output at all — in particular no second user-disconnected event — whenever
the user still has a registry entry (i.e. at least one other live
connection). -/
theorem close_cleanup_idempotent
    (env : Env) (s : ServerState) (cid : Nat) (d : ConnData)
    (hcd : alGet s.connData cid = some d)
    (hchat : d.chatRooms = [])
    (hnosock : ∀ l, alGet s.users d.userId = some l → cid ∉ l)
    (hne : alGet s.users d.userId ≠ some [])
    (hnoroom : ∀ e ∈ s.rooms, memB d.userId e.2 = false)
    (hnocall : alGet s.activeCalls d.userId = none) :
    (∀ u, alGet (step env s (.connClose cid)).1.users u = alGet s.users u) ∧
    (step env s (.connClose cid)).1.rooms = s.rooms ∧
    (step env s (.connClose cid)).1.roomChats = s.roomChats ∧
    (step env s (.connClose cid)).1.activeCalls = s.activeCalls ∧
    (step env s (.connClose cid)).1.msgCache = s.msgCache ∧
    (step env s (.connClose cid)).1.dbRooms = s.dbRooms ∧
    (∀ l, alGet s.users d.userId = some l → (step env s (.connClose cid)).2 = []) := by
  dsimp only [step]
  unfold handleClose
  rw [hcd]
  dsimp only
  cases hu : alGet s.users d.userId with
  | some l =>
    have hl0 : l ≠ [] := fun h => hne (h ▸ hu)
    have hld : setDel l cid = l := setDel_of_not_mem (hnosock l hu)
    have hle : l.isEmpty = false := by
      cases l with
      | nil => exact absurd rfl hl0
      | cons a t => rfl
    dsimp only
    rw [hld, hle]
    refine ⟨?_, rfl, rfl, rfl, rfl, rfl, fun l' _ => rfl⟩
    intro u
    show alGet (alSet s.users d.userId l) u = alGet s.users u
    rw [alGet_alSet]
    by_cases h : u = d.userId
    · rw [if_pos h, h, hu]
    · rw [if_neg h]
  | none =>
    dsimp only
    have hrem : removeUserFromRooms { s with users := s.users } d.userId d.isGuest
        = ({ s with users := s.users }, []) :=
      removeUserFromRoomsAux_noop d.userId d.isGuest s.rooms { s with users := s.users } [] hnoroom
    rw [hrem]
    dsimp only
    rw [hchat]
    dsimp only [cleanChats]
    cases hg : d.isGuest with
    | true =>
      refine ⟨fun u => rfl, rfl, rfl, rfl, rfl, rfl, fun l hl => ?_⟩
      cases hl
    | false =>
      rw [hnocall]
      dsimp only
      refine ⟨fun u => rfl, rfl, rfl, rfl, rfl, rfl, fun l hl => ?_⟩
      cases hl

theorem close_cleanup_idempotent_witness :
    (∀ u, alGet (step envDefault
        { users := [("a", [2])], connData := [(1, { userId := "a" })],
          rooms := [("x", ["b"])], activeCalls := [("b", "c")] }
        (.connClose 1)).1.users u = alGet [("a", [2])] u) ∧
    (step envDefault
        { users := [("a", [2])], connData := [(1, { userId := "a" })],
          rooms := [("x", ["b"])], activeCalls := [("b", "c")] }
        (.connClose 1)).1.rooms = [("x", ["b"])] ∧
    (step envDefault
        { users := [("a", [2])], connData := [(1, { userId := "a" })],
          rooms := [("x", ["b"])], activeCalls := [("b", "c")] }
        (.connClose 1)).1.roomChats = [] ∧
    (step envDefault
        { users := [("a", [2])], connData := [(1, { userId := "a" })],
          rooms := [("x", ["b"])], activeCalls := [("b", "c")] }
        (.connClose 1)).1.activeCalls = [("b", "c")] ∧
    (step envDefault
        { users := [("a", [2])], connData := [(1, { userId := "a" })],
          rooms := [("x", ["b"])], activeCalls := [("b", "c")] }
        (.connClose 1)).1.msgCache = [] ∧
    (step envDefault
        { users := [("a", [2])], connData := [(1, { userId := "a" })],
          rooms := [("x", ["b"])], activeCalls := [("b", "c")] }
        (.connClose 1)).1.dbRooms = [] ∧
    (∀ l, alGet [("a", [2])] "a" = some l →
      (step envDefault
        { users := [("a", [2])], connData := [(1, { userId := "a" })],
          rooms := [("x", ["b"])], activeCalls := [("b", "c")] }
        (.connClose 1)).2 = []) :=
  close_cleanup_idempotent envDefault
    { users := [("a", [2])], connData := [(1, { userId := "a" })],
      rooms := [("x", ["b"])], activeCalls := [("b", "c")] }
    1 { userId := "a" }
    rfl rfl
    (fun l hl => by injection hl with h; rw [← h]; decide)
    (by decide) (by decide) rfl

theorem guestOpen_silent (env : Env) (s : ServerState) (cid : Nat) (od : OpenData)
    (hg : od.isGuest = true) :
    ((step env s (.connOpen cid od)).2.all fun o => !presenceEffect o) = true ∧
    (step env s (.connOpen cid od)).1.activeCalls = s.activeCalls := by
  dsimp only [step]
  unfold handleOpen
  dsimp only
  rw [hg]
  simp only [Bool.not_true, Bool.and_false, Bool.false_eq_true, if_false]
  split
  · constructor
    · simp only [List.nil_append, List.all_eq_true, Bool.not_eq_true']
      exact handleJoinRoom_no_presence_outs env _ cid _ _
    · exact (handleJoinRoom_frame env _ cid _ _).2.1
  · exact ⟨rfl, rfl⟩

theorem guestClose_silent (env : Env) (s : ServerState) (cid : Nat) (d : ConnData)
    (hcd : alGet s.connData cid = some d) (hg : d.isGuest = true) :
    ((step env s (.connClose cid)).2.all fun o => !presenceEffect o) = true ∧
    (step env s (.connClose cid)).1.activeCalls = s.activeCalls := by
  dsimp only [step]
  unfold handleClose
  rw [hcd]
  dsimp only
  cases hu : alGet s.users d.userId with
  | none =>
    dsimp only
    rw [hg]
    constructor
    · simp only [List.all_eq_true, Bool.not_eq_true']
      exact removeUserFromRoomsAux_outs d.userId true s.rooms _ []
        (fun o ho => absurd ho (List.not_mem_nil o))
    · exact (removeUserFromRoomsAux_frame d.userId true s.rooms _ []).2.1
  | some l =>
    dsimp only
    cases he : (setDel l cid).isEmpty with
    | true =>
      rw [hg]
      constructor
      · simp only [List.all_eq_true, Bool.not_eq_true']
        exact removeUserFromRoomsAux_outs d.userId true s.rooms _ []
          (fun o ho => absurd ho (List.not_mem_nil o))
      · exact (removeUserFromRoomsAux_frame d.userId true s.rooms _ []).2.1
    | false =>
      exact ⟨rfl, rfl⟩

theorem guest_presence_silent :
    (∀ (env : Env) (s : ServerState) (cid : Nat) (od : OpenData),
      od.isGuest = true →
      ((step env s (.connOpen cid od)).2.all fun o => !presenceEffect o) = true ∧
      (step env s (.connOpen cid od)).1.activeCalls = s.activeCalls) ∧
    (∀ (env : Env) (s : ServerState) (cid : Nat) (d : ConnData),
      alGet s.connData cid = some d → d.isGuest = true →
      ((step env s (.connClose cid)).2.all fun o => !presenceEffect o) = true ∧
      (step env s (.connClose cid)).1.activeCalls = s.activeCalls) :=
  ⟨fun env s cid od hg => guestOpen_silent env s cid od hg,
   fun env s cid d hcd hg => guestClose_silent env s cid d hcd hg⟩

theorem guest_presence_silent_witness :
    (((step envDefault {} (.connOpen 1 { userId := "guest:g", isGuest := true })).2.all
        fun o => !presenceEffect o) = true ∧
      (step envDefault {} (.connOpen 1 { userId := "guest:g", isGuest := true })).1.activeCalls =
        ({} : ServerState).activeCalls) ∧
    (((step envDefault
          { users := [("guest:g", [1])],
            connData := [(1, { userId := "guest:g", isGuest := true })],
            rooms := [("r", ["guest:g"])], msgCache := [("r", 3)],
            dbRooms := [("r", {})] }
          (.connClose 1)).2.all fun o => !presenceEffect o) = true ∧
      (step envDefault
          { users := [("guest:g", [1])],
            connData := [(1, { userId := "guest:g", isGuest := true })],
            rooms := [("r", ["guest:g"])], msgCache := [("r", 3)],
            dbRooms := [("r", {})] }
          (.connClose 1)).1.activeCalls = []) :=
  ⟨guest_presence_silent.1 envDefault {} 1 { userId := "guest:g", isGuest := true } rfl,
   guest_presence_silent.2 envDefault
     { users := [("guest:g", [1])],
       connData := [(1, { userId := "guest:g", isGuest := true })],
       rooms := [("r", ["guest:g"])], msgCache := [("r", 3)],
       dbRooms := [("r", {})] }
     1 { userId := "guest:g", isGuest := true } rfl rfl⟩

theorem guest_close_mutates_beyond_rooms_counterexample :
    (step envDefault
        { users := [("guest:g", [1])],
          connData := [(1, { userId := "guest:g", isGuest := true })],
          rooms := [("r", ["guest:g"])], msgCache := [("r", 3)],
          dbRooms := [("r", {})] }
        (.connClose 1)).1.msgCache ≠ [("r", 3)] ∧
    (step envDefault
        { users := [("guest:g", [1])],
          connData := [(1, { userId := "guest:g", isGuest := true })],
          rooms := [("r", ["guest:g"])], msgCache := [("r", 3)],
          dbRooms := [("r", {})] }
        (.connClose 1)).1.dbRooms ≠ [("r", {})] := by
  decide
